import Mathlib

/-!
Shallow embedding of the installation lifecycle manager of the `catalyst`
CLI (crate `catalyst-cli`, files `src/init.rs`, `src/update.rs`,
`src/types.rs`), together with proofs about the embedded operations.

Modelling conventions:
* A filesystem path is its list of components (`FsPath := List String`);
  `PathBuf::join` is list append.  File contents are a `FileData`; JSON
  documents are kept structurally (serialization is the constructor,
  deserialization is the match on it), so `serde_json::from_str::<CatalystHashes>`
  succeeds exactly on documents that were serialized from a `CatalystHashes`
  value, and fails on the flat path-to-hash map written by
  `generate_skill_hashes` (which lacks the `version`/`updated_at`/`skills`/
  `hooks` fields).
* The mutable environment is a `World`: the file map, the set of created
  directories, an event trace (file writes and lock acquisitions/releases),
  and injection points for the failures the source handles (write failures
  keyed by path, temp-file-creation failures keyed by the parent directory,
  rename/persist failures keyed by path).  Read failures are not modelled:
  no claim under scrutiny depends on them.
* `include_dir!` data (the compiled-in skills bundle) and the process
  environment (`Platform::detect`, `process::id`, `is_process_running`)
  are `World` fields, since they are inputs of the program, not state it
  mutates.  The recursive embedded directory tree is flattened to the list
  of (skill-relative path, contents) pairs of its files; `include_dir`'s
  root-relative `File::path()` of the file at skill-relative `rel` inside
  the skill rooted at root-relative `src` is `src ++ rel`.  The two copy
  routines treat these paths differently, and the model keeps the
  difference: `copy_dir_recursive` (init.rs) strips each level to its
  `file_name` and so writes `target ++ rel`, while `copy_skill_files`
  (update.rs) joins the root-relative `file.path()` itself.  Directory
  creation is a no-op on a path map.
* SHA-256 (`sha2::Sha256`) is modelled as a deterministic function of the
  file bytes.  The source relies only on determinism of the digest
  (equal bytes give equal hex strings), which the model preserves.
-/

/-- A filesystem path, as its list of components.  `Path::join` appends. -/
abbrev FsPath := List String

/-- Render a path the way `Path::display` does, for error messages. -/
def pathString (p : FsPath) : String := String.intercalate "/" p

/-- Association-list lookup, modelling `HashMap` lookup and "the content of
the file at this path".  Returns the first binding of the key. -/
def alookup {κ α : Type} [DecidableEq κ] : List (κ × α) → κ → Option α
  | [], _ => none
  | e :: es, k => if e.1 = k then some e.2 else alookup es k

/-- Association-list insert, modelling `HashMap::insert`: the new binding
replaces any previous binding of the key. -/
def ainsert {κ α : Type} [DecidableEq κ] (m : List (κ × α)) (k : κ) (v : α) :
    List (κ × α) :=
  (k, v) :: m.filter (fun e => decide (e.1 ≠ k))

/-- `std::io::ErrorKind`, restricted to the kinds the embedded code
distinguishes.  `CrossDevice` stands for a raw OS error `EXDEV` (the code
tests `raw_os_error() == Some(EXDEV)`). -/
inductive IoErrorKind where
  | NotFound
  | PermissionDenied
  | AlreadyExists
  | CrossDevice
  | InvalidInput
  | Other
deriving DecidableEq, Repr

/-- The variants of `CatalystError` (types.rs) that the embedded code
constructs.  An `std::io::Error` payload is modelled by its kind. -/
inductive CatalystError where
  | Io (kind : IoErrorKind)
  | Json
  | InvalidPath (msg : String)
  | InvalidConfig (msg : String)
  | InitInProgress (pid : Nat) (lock_file : String)
  | FileReadFailed (path : FsPath) (kind : IoErrorKind)
  | FileWriteFailed (path : FsPath) (kind : IoErrorKind)
  | DirectoryCreationFailed (path : FsPath) (kind : IoErrorKind)
  | PathTraversalDetected (msg : String)
deriving DecidableEq

/-- `Platform` (types.rs). -/
inductive Platform where
  | Linux
  | MacOS
  | Windows
  | WSL
deriving DecidableEq

/-- `Platform::hook_extension` (types.rs). -/
def Platform.hook_extension : Platform → String
  | .Linux => "sh"
  | .MacOS => "sh"
  | .WSL => "sh"
  | .Windows => "ps1"

/-- `CatalystHashes` (types.rs): the parsed `.catalyst-hashes.json`
document.  The two `HashMap<String, String>` fields are association lists
with the `alookup`/`ainsert` map semantics. -/
structure CatalystHashes where
  version : String
  updated_at : String
  skills : List (String × String)
  hooks : List (String × String)
deriving DecidableEq

/-- `CatalystHashes::new` (types.rs); `now` models `chrono::Utc::now().to_rfc3339()`. -/
def CatalystHashes.new (version : String) (now : String) : CatalystHashes :=
  { version := version, updated_at := now, skills := [], hooks := [] }

/-- The content of a file.  JSON documents are kept structurally: writing
a serialized value stores the constructor, and deserializing matches on it. -/
inductive FileData where
  | text (s : String)
  | jsonMap (m : List (FsPath × String))
  | jsonHashes (h : CatalystHashes)
deriving DecidableEq

/-- Entries of a string-keyed map, rendered for the byte-level view of a
serialized document. -/
def encodeEntries (m : List (String × String)) : String :=
  String.intercalate ";" (m.map (fun e => e.1 ++ "=" ++ e.2))

/-- Entries of a path-keyed map, rendered for the byte-level view of a
serialized document. -/
def encodePathEntries (m : List (FsPath × String)) : String :=
  String.intercalate ";" (m.map (fun e => pathString e.1 ++ "=" ++ e.2))

/-- The bytes of a file, as `fs::read_to_string` returns them.  A text
file renders to itself; serialized JSON documents render to a canonical
deterministic encoding (the exact `serde_json` bytes are abstracted, only
determinism matters to the embedded code). -/
def FileData.render : FileData → String
  | .text s => s
  | .jsonMap m => "json-map:" ++ encodePathEntries m
  | .jsonHashes h =>
      "json-hashes:" ++ h.version ++ "|" ++ h.updated_at ++ "|" ++
        encodeEntries h.skills ++ "|" ++ encodeEntries h.hooks

/-- `serde_json::from_str::<CatalystHashes>`: succeeds exactly on documents
serialized from a `CatalystHashes`; the flat map written by
`generate_skill_hashes` lacks the required fields and fails. -/
def parseCatalystHashes : FileData → Option CatalystHashes
  | .jsonHashes h => some h
  | _ => none

/-- SHA-256 hex digest of file bytes, modelled as a deterministic function
of the content (the source depends only on determinism of the digest). -/
def sha256hex (content : String) : String := "sha256:" ++ content

/-- Events recorded by the model: file writes, lock-file creations
(`try_create_lock_file` succeeding) and lock releases. -/
inductive Event where
  | writeFile (p : FsPath)
  | acquireLock (p : FsPath)
  | releaseLock (p : FsPath)
deriving DecidableEq

/-- An embedded `include_dir::Dir` for one skill: the recursive tree
flattened to the (relative path, contents) pairs its files hold. -/
structure SkillDir where
  files : List (FsPath × String)
deriving DecidableEq

/-- The world the embedded code runs in: the file map (most recent binding
first), the set of existing directories, the event trace (chronological),
failure-injection points for the failures the source handles, and the
process environment (`include_dir!` bundle, platform, pid, liveness oracle,
clock, and the marker another process may create inside the stale-lock
race window that `acquire_init_lock` documents). -/
structure World where
  files : List (FsPath × FileData)
  dirs : List FsPath
  trace : List Event
  writeFail : FsPath → Option IoErrorKind
  tempFail : FsPath → Option IoErrorKind
  persistFail : FsPath → Option IoErrorKind
  running : Nat → Bool
  currentPid : Nat
  interference : Option String
  platform : Platform
  skillsBundle : List (String × SkillDir)
  now : String

/-- The content of the file at `p`, if one exists. -/
def World.readFile (w : World) (p : FsPath) : Option FileData := alookup w.files p

/-- Record a successful file write: bind the path and log the event. -/
def World.putFile (w : World) (p : FsPath) (d : FileData) : World :=
  { w with files := (p, d) :: w.files, trace := w.trace ++ [Event.writeFile p] }

/-- Delete the file at `p` (`fs::remove_file`). -/
def World.removeFile (w : World) (p : FsPath) : World :=
  { w with files := w.files.filter (fun e => decide (e.1 ≠ p)) }

/-- `fs::write`, with the write-failure injection point. -/
def World.fsWrite (w : World) (p : FsPath) (d : FileData) :
    Except IoErrorKind World :=
  match w.writeFail p with
  | some k => .error k
  | none => .ok (w.putFile p d)

/-- Whether a file exists at `p`. -/
def World.isFile (w : World) (p : FsPath) : Bool := (alookup w.files p).isSome

/-- Whether a directory exists at `p`. -/
def World.isDir (w : World) (p : FsPath) : Bool := decide (p ∈ w.dirs)

/-- `Path::exists`. -/
def World.pathExists (w : World) (p : FsPath) : Bool := w.isFile p || w.isDir p

/-- `fs::create_dir_all`, on the path-map model. -/
def World.mkDir (w : World) (p : FsPath) : World := { w with dirs := p :: w.dirs }

/-- `CATALYST_VERSION` is `env!("CARGO_PKG_VERSION")`; the manifest is not
among the sources, so the value is an arbitrary fixed version string (no
embedded behaviour depends on the value, only on comparisons with it). -/
def CATALYST_VERSION : String := "0.1.0"

/-- `CLAUDE_DIR` (types.rs). -/
def CLAUDE_DIR : FsPath := [".claude"]

/-- `HOOKS_DIR` (types.rs). -/
def HOOKS_DIR : FsPath := [".claude", "hooks"]

/-- `SKILLS_DIR` (types.rs). -/
def SKILLS_DIR : FsPath := [".claude", "skills"]

/-- `AGENTS_DIR` (types.rs). -/
def AGENTS_DIR : FsPath := [".claude", "agents"]

/-- `COMMANDS_DIR` (types.rs). -/
def COMMANDS_DIR : FsPath := [".claude", "commands"]

/-- `VERSION_FILE` (types.rs). -/
def VERSION_FILE : FsPath := [".catalyst-version"]

/-- `HASHES_FILE` (types.rs): a bare file name, joined directly onto the
target directory by `update_skills` and `regenerate_hashes` (update.rs). -/
def HASHES_FILE : FsPath := [".catalyst-hashes.json"]

/-- `AVAILABLE_SKILLS` (types.rs). -/
def AVAILABLE_SKILLS : List String :=
  ["skill-developer", "backend-dev-guidelines", "frontend-dev-guidelines",
   "route-tester", "error-tracking"]

/-- `LOCK_FILE` (init.rs): the lock marker name inside the target directory. -/
def LOCK_FILE_NAME : String := ".catalyst.lock"

/-- ASCII whitespace, for the trim model. -/
def isWsChar (c : Char) : Bool := c = ' ' || c = '\n' || c = '\t' || c = '\r'

/-- `str::trim`, modelled on the character list for the ASCII whitespace
this program ever writes (kernel-reducible, unlike `String.trim`). -/
def strTrim (s : String) : String :=
  ⟨((s.data.dropWhile isWsChar).reverse.dropWhile isWsChar).reverse⟩

/-- Decimal digit accumulator for the `u32` parse model. -/
def digitsValAux : Nat → List Char → Option Nat
  | acc, [] => some acc
  | acc, c :: rest =>
      if c.isDigit then digitsValAux (acc * 10 + (c.toNat - 48)) rest else none

/-- All-decimal-digits string to its value (the `String.toNat?` semantics,
kernel-reducible). -/
def strToNatQ (s : String) : Option Nat :=
  if s.data.isEmpty then none else digitsValAux 0 s.data

/-- One fuel-bounded step list of `str::replace` on character lists; the
fuel starts at the input length, so the definition is structural. -/
def listReplaceFuel (pat rep : List Char) : Nat → List Char → List Char
  | _, [] => []
  | 0, l => l
  | n + 1, c :: rest =>
      if pat.isEmpty then c :: rest
      else if pat.isPrefixOf (c :: rest) then
        rep ++ listReplaceFuel pat rep n ((c :: rest).drop pat.length)
      else c :: listReplaceFuel pat rep n rest

/-- `str::replace`, on the character-list model. -/
def strReplace (s pat rep : String) : String :=
  ⟨listReplaceFuel pat.data rep.data s.data.length s.data⟩

/-- `str::trim().parse::<u32>()` on the lock-marker content: digits parse to
their value when it fits in a `u32`, everything else is a parse error.
(The optional leading `+` sign `u32: FromStr` would accept is not modelled;
no claim depends on it.) -/
def parse_u32 (s : String) : Option Nat :=
  match strToNatQ s with
  | some n => if n < 4294967296 then some n else none
  | none => none

/-- `is_valid_pid` (init.rs): rejects pid 0 and the reserved init-process
pid 1, nothing else. -/
def is_valid_pid (pid : Nat) : Bool := pid != 0 && pid != 1

/-- `try_create_lock_file` (init.rs): atomically create the marker with
`create_new(true)` and write the pid; fails with `AlreadyExists` when the
marker is present.  A successful creation is the lock acquisition event. -/
def try_create_lock_file (w : World) (lock_file : FsPath) (pid : Nat) :
    Except CatalystError Unit × World :=
  match alookup w.files lock_file with
  | some _ => (.error (.Io .AlreadyExists), w)
  | none =>
      (.ok (), { w with
        files := (lock_file, FileData.text (toString pid)) :: w.files,
        trace := w.trace ++ [Event.acquireLock lock_file] })

/-- The marker another process may create inside the documented race window
between `remove_file` and the retried `try_create_lock_file`; `none` means
no other process interferes. -/
def applyInterference (w : World) (lock_file : FsPath) : World :=
  match w.interference with
  | some s => { w with files := (lock_file, FileData.text s) :: w.files }
  | none => w

/-- `acquire_init_lock` (init.rs): atomic create; on collision read the
recorded pid; a valid pid of a running process is a hard
`InitInProgress` failure; otherwise the marker is stale: remove it and
retry the atomic create exactly once (non-recursively). -/
def acquire_init_lock (w : World) (target_dir : FsPath) :
    Except CatalystError Unit × World :=
  let lock_file := target_dir ++ [LOCK_FILE_NAME]
  let current_pid := w.currentPid
  match try_create_lock_file w lock_file current_pid with
  | (.ok _, w1) => (.ok (), w1)
  | (.error (.Io .AlreadyExists), _) =>
      match alookup w.files lock_file with
      | none => (.error (.Io .NotFound), w)
      | some d =>
          let pid_str := d.render
          match parse_u32 (strTrim pid_str) with
          | some pid =>
              if is_valid_pid pid then
                if w.running pid then
                  (.error (.InitInProgress pid (pathString lock_file)), w)
                else
                  try_create_lock_file
                    (applyInterference (w.removeFile lock_file) lock_file)
                    lock_file current_pid
              else
                try_create_lock_file
                  (applyInterference (w.removeFile lock_file) lock_file)
                  lock_file current_pid
          | none =>
              try_create_lock_file
                (applyInterference (w.removeFile lock_file) lock_file)
                lock_file current_pid
  | (.error e, _) => (.error e, w)

/-- `release_init_lock` (init.rs): delete the marker if present; releasing
an absent marker is not an error. -/
def release_init_lock (w : World) (lock_file : FsPath) : World :=
  match alookup w.files lock_file with
  | some _ =>
      let w1 := w.removeFile lock_file
      { w1 with trace := w1.trace ++ [Event.releaseLock lock_file] }
  | none => w

/-- `SkippedSkill` (types.rs). -/
structure SkippedSkill where
  name : String
  reason : String
  current_hash : String
  expected_hash : String
deriving DecidableEq

/-- `UpdateReport` (types.rs). -/
structure UpdateReport where
  updated_skills : List String
  skipped_skills : List SkippedSkill
  updated_hooks : List String
  binary_updates_available : List String
  success : Bool
  errors : List String
deriving DecidableEq

/-- `UpdateReport::new` (types.rs). -/
def UpdateReport.new : UpdateReport :=
  { updated_skills := [], skipped_skills := [], updated_hooks := [],
    binary_updates_available := [], success := true, errors := [] }

/-- `InitConfig` (types.rs). -/
structure InitConfig where
  install_hooks : Bool
  install_tracker : Bool
  skills : List String
  force : Bool
  directory : FsPath

/-- `InitReport` (types.rs). -/
structure InitReport where
  created_dirs : List String
  installed_hooks : List String
  installed_skills : List String
  settings_created : Bool
  version_file_created : Bool
  hashes_file_created : Bool
  warnings : List String
deriving DecidableEq

/-- `InitReport::new` (types.rs). -/
def InitReport.new : InitReport :=
  { created_dirs := [], installed_hooks := [], installed_skills := [],
    settings_created := false, version_file_created := false,
    hashes_file_created := false, warnings := [] }

/-- Rendering of a `CatalystError` by its `thiserror` `Display` format
(types.rs), used when an error is folded into a report message. -/
def errMsg : CatalystError → String
  | .Io _ => "IO error"
  | .Json => "JSON serialization error"
  | .InvalidPath s => "Invalid path: " ++ s
  | .InvalidConfig s => "Invalid configuration: " ++ s
  | .InitInProgress pid lock_file =>
      "Initialization already in progress (PID " ++ toString pid ++
        "). If this is stale, remove the lock file at: " ++ lock_file
  | .FileReadFailed p _ => "Failed to read file: " ++ pathString p
  | .FileWriteFailed p _ => "Failed to write file: " ++ pathString p
  | .DirectoryCreationFailed p _ => "Failed to create directory: " ++ pathString p
  | .PathTraversalDetected s => "Path traversal detected: " ++ s

/-- `read_version_file` (init.rs): read `.catalyst-version` directly, treat
`NotFound` as `Ok(None)`, and trim the content. -/
def read_version_file (w : World) (target_dir : FsPath) :
    Except CatalystError (Option String) :=
  match alookup w.files (target_dir ++ VERSION_FILE) with
  | some d => .ok (some (strTrim d.render))
  | none => .ok none

/-- `write_version_file` (init.rs): plain `fs::write` of
`CATALYST_VERSION` plus a newline, failures typed `FileWriteFailed`. -/
def write_version_file (w : World) (target_dir : FsPath) :
    Except CatalystError Unit × World :=
  let version_path := target_dir ++ VERSION_FILE
  match w.writeFail version_path with
  | some e => (.error (.FileWriteFailed version_path e), w)
  | none => (.ok (), w.putFile version_path (.text (CATALYST_VERSION ++ "\n")))

/-- The embedded `resources/wrapper-template.sh` (not among the sources;
its content is opaque to every claim, only the `\x7b\x7bBINARY_NAME\x7d\x7d`
substitution point matters). -/
def WRAPPER_TEMPLATE_SH : String :=
  "#!/bin/bash\nexec \x7b\x7bBINARY_NAME\x7d\x7d \"$@\"\n"

/-- The embedded `resources/wrapper-template.ps1` (not among the sources;
content opaque to every claim). -/
def WRAPPER_TEMPLATE_PS1 : String :=
  "& \x7b\x7bBINARY_NAME\x7d\x7d.exe @args\n"

/-- `generate_wrapper_scripts` (init.rs): plain `fs::write` of each
requested wrapper, with the platform extension; permission bits are a
no-op in the path-map model.  Errors are `CatalystError::Io`. -/
def generate_wrapper_scripts (w : World) (target_dir : FsPath)
    (install_hooks install_tracker : Bool) (platform : Platform) :
    Except CatalystError (List String) × World :=
  let hooks_dir := target_dir ++ HOOKS_DIR
  let template := match platform with
    | Platform.Windows => WRAPPER_TEMPLATE_PS1
    | _ => WRAPPER_TEMPLATE_SH
  let ext := match platform with
    | Platform.Windows => "ps1"
    | _ => "sh"
  let step1 : Except CatalystError (List String) × World :=
    if install_hooks then
      let wrapper_name := "skill-activation-prompt." ++ ext
      let content := strReplace template "\x7b\x7bBINARY_NAME\x7d\x7d" "skill-activation-prompt"
      match w.fsWrite (hooks_dir ++ [wrapper_name]) (.text content) with
      | .error e => (.error (.Io e), w)
      | .ok w1 => (.ok [wrapper_name], w1)
    else (.ok [], w)
  match step1 with
  | (.error e, w1) => (.error e, w1)
  | (.ok installed, w1) =>
      if install_tracker then
        let wrapper_name := "file-change-tracker." ++ ext
        let content := strReplace template "\x7b\x7bBINARY_NAME\x7d\x7d" "file-change-tracker"
        match w1.fsWrite (hooks_dir ++ [wrapper_name]) (.text content) with
        | .error e => (.error (.Io e), w1)
        | .ok w2 => (.ok (installed ++ [wrapper_name]), w2)
      else (.ok installed, w1)

/-- `try_atomic_write` (init.rs): `NamedTempFile::new_in(parent)` (the
temp-creation failure point, keyed by the parent directory), write, flush,
then `persist` (the rename failure point, keyed by the target path).  A
path without a parent is `InvalidInput`. -/
def try_atomic_write (w : World) (path : FsPath) (content : FileData) :
    Except IoErrorKind Unit × World :=
  if path.isEmpty then (.error .InvalidInput, w)
  else
    match w.tempFail path.dropLast with
    | some e => (.error e, w)
    | none =>
        match w.persistFail path with
        | some e => (.error e, w)
        | none => (.ok (), w.putFile path content)

/-- `is_cross_device_error` (init.rs): the `EXDEV` raw OS error. -/
def is_cross_device_error (e : IoErrorKind) : Bool := e == .CrossDevice

/-- `is_temp_creation_error` (init.rs): `PermissionDenied` or `NotFound`. -/
def is_temp_creation_error (e : IoErrorKind) : Bool :=
  e == .PermissionDenied || e == .NotFound

/-- `write_file_atomic` (init.rs): try the atomic write; on a cross-device
or temp-creation error fall back to a plain `fs::write` and return
`Ok(false)`; propagate every other error as `CatalystError::Io`.  Returns
`Ok(true)` when the atomic write succeeded. -/
def write_file_atomic (w : World) (path : FsPath) (content : FileData) :
    Except CatalystError Bool × World :=
  match try_atomic_write w path content with
  | (.ok _, w1) => (.ok true, w1)
  | (.error e, _) =>
      if is_cross_device_error e || is_temp_creation_error e then
        match w.fsWrite path content with
        | .error e2 => (.error (.Io e2), w)
        | .ok w1 => (.ok false, w1)
      else (.error (.Io e), w)

/-- `compute_file_hash` (update.rs): `fs::read` then SHA-256, read
failures typed `FileReadFailed`; an absent file is a `NotFound` read
failure. -/
def compute_file_hash (w : World) (file_path : FsPath) :
    Except CatalystError String :=
  match alookup w.files file_path with
  | none => .error (.FileReadFailed file_path .NotFound)
  | some d => .ok (sha256hex d.render)

/-- `copy_skill_files` (update.rs), flattened to its net effect.  Unlike
`copy_dir_recursive` (init.rs), which strips every embedded path to its
`file_name` before joining, this function joins `file.path()` directly
(`target_dir.join(file.path())`, update.rs) — and in `include_dir` that
path is relative to the *embedded root* `.claude/skills`, so it still
carries the skill-name prefix: below, `src_path ++ rel` is `file.path()`
for the file at skill-relative `rel` of the skill rooted at root-relative
`src_path`.  The subdirectory recursion does strip the subdirectory name
with `file_name`, so the recursion level holding `rel` has target
`target_dir ++ rel.dropLast`; the file hence lands at
`(target_dir ++ rel.dropLast) ++ (src_path ++ rel)`, not at
`target_dir ++ rel`.  Directory creation is a no-op on the path map;
write failures are typed `FileWriteFailed`. -/
def copy_skill_files (w : World) (source_files : List (FsPath × String))
    (src_path target_dir : FsPath) : Except CatalystError Unit × World :=
  match source_files with
  | [] => (.ok (), w)
  | (rel, content) :: rest =>
      let target_path := (target_dir ++ rel.dropLast) ++ (src_path ++ rel)
      match w.writeFail target_path with
      | some e => (.error (.FileWriteFailed target_path e), w)
      | none =>
          copy_skill_files (w.putFile target_path (.text content)) rest
            src_path target_dir

/-- The per-skill rehash loop of `regenerate_hashes` (update.rs): hash
each updated skill's `SKILL.md` and insert it into the map; a missing
skill file is skipped, other read errors abort. -/
def regen_loop (w : World) (skills_dir : FsPath) (hashes : List (String × String)) :
    List String → Except CatalystError (List (String × String))
  | [] => .ok hashes
  | skill_name :: rest =>
      let skill_path := skills_dir ++ [skill_name, "SKILL.md"]
      match compute_file_hash w skill_path with
      | .error (.FileReadFailed _ .NotFound) => regen_loop w skills_dir hashes rest
      | .error e => .error e
      | .ok hash => regen_loop w skills_dir (ainsert hashes skill_name hash) rest

/-- `regenerate_hashes` (update.rs): read `target_dir/.catalyst-hashes.json`
directly (a missing file becomes a fresh `CatalystHashes`), rehash every
updated skill, stamp version and timestamp, and `fs::write` the document
back. -/
def regenerate_hashes (w : World) (target_dir : FsPath)
    (updated_skills : List String) : Except CatalystError Unit × World :=
  let hashes_path := target_dir ++ HASHES_FILE
  let parsed : Except CatalystError CatalystHashes :=
    match alookup w.files hashes_path with
    | some d =>
        match parseCatalystHashes d with
        | some h => .ok h
        | none => .error .Json
    | none => .ok (CatalystHashes.new CATALYST_VERSION w.now)
  match parsed with
  | .error e => (.error e, w)
  | .ok hashes =>
      let skills_dir := target_dir ++ SKILLS_DIR
      match regen_loop w skills_dir hashes.skills updated_skills with
      | .error e => (.error e, w)
      | .ok newSkills =>
          let hashes1 := { hashes with
            skills := newSkills, version := CATALYST_VERSION, updated_at := w.now }
          match w.writeFail hashes_path with
          | some e => (.error (.FileWriteFailed hashes_path e), w)
          | none => (.ok (), w.putFile hashes_path (.jsonHashes hashes1))

/-- The per-skill loop of `update_skills` (update.rs): hash the installed
`SKILL.md` (a missing file is skipped silently); a hash mismatch without
`force` goes to the skipped list with both hashes; otherwise the skill is
re-copied from the embedded bundle when the bundle has it. -/
def update_skills_loop (w : World) (skills_dir : FsPath) (force : Bool)
    (updated : List String) (skipped : List SkippedSkill) :
    List (String × String) →
      Except CatalystError (List String × List SkippedSkill) × World
  | [] => (.ok (updated, skipped), w)
  | (skill_name, expected_hash) :: rest =>
      let skill_path := skills_dir ++ [skill_name, "SKILL.md"]
      match compute_file_hash w skill_path with
      | .error (.FileReadFailed _ .NotFound) =>
          update_skills_loop w skills_dir force updated skipped rest
      | .error e => (.error e, w)
      | .ok current_hash =>
          if current_hash != expected_hash && !force then
            update_skills_loop w skills_dir force updated
              (skipped ++ [{ name := skill_name, reason := "Modified locally",
                             current_hash := current_hash,
                             expected_hash := expected_hash }]) rest
          else
            match alookup w.skillsBundle skill_name with
            | some skill_dir =>
                match copy_skill_files w skill_dir.files [skill_name]
                    (skills_dir ++ [skill_name]) with
                | (.error e, w1) => (.error e, w1)
                | (.ok _, w1) =>
                    update_skills_loop w1 skills_dir force
                      (updated ++ [skill_name]) skipped rest
            | none => update_skills_loop w skills_dir force updated skipped rest

/-- `update_skills` (update.rs): read `target_dir/.catalyst-hashes.json`
directly (`NotFound` returns empty results), parse it as `CatalystHashes`,
run the per-skill loop, and regenerate the hash file when anything was
updated. -/
def update_skills (w : World) (target_dir : FsPath) (force : Bool) :
    Except CatalystError (List String × List SkippedSkill) × World :=
  let hashes_path := target_dir ++ HASHES_FILE
  match alookup w.files hashes_path with
  | none => (.ok ([], []), w)
  | some d =>
      match parseCatalystHashes d with
      | none => (.error .Json, w)
      | some stored_hashes =>
          let skills_dir := target_dir ++ SKILLS_DIR
          match update_skills_loop w skills_dir force [] [] stored_hashes.skills with
          | (.error e, w1) => (.error e, w1)
          | (.ok (updated, skipped), w1) =>
              if updated.isEmpty then (.ok (updated, skipped), w1)
              else
                match regenerate_hashes w1 target_dir updated with
                | (.error e, w2) => (.error e, w2)
                | (.ok _, w2) => (.ok (updated, skipped), w2)

/-- Phase 6.2 of `update` (update.rs): regenerate the wrapper scripts,
folding a failure into the report (graceful degradation). -/
def update_wrappers_step (w : World) (target_dir : FsPath)
    (report : UpdateReport) : UpdateReport × World :=
  match generate_wrapper_scripts w target_dir true true w.platform with
  | (.ok hooks, w1) => ({ report with updated_hooks := hooks }, w1)
  | (.error e, w1) =>
      ({ report with
          errors := report.errors ++ ["Failed to update wrapper scripts: " ++ errMsg e],
          success := false }, w1)

/-- Phase 6.3 of `update` (update.rs): run `update_skills`, folding a
failure into the report (graceful degradation). -/
def update_skills_step (w : World) (target_dir : FsPath) (force : Bool)
    (report : UpdateReport) : UpdateReport × World :=
  match update_skills w target_dir force with
  | (.ok (updated, skipped), w1) =>
      ({ report with updated_skills := updated, skipped_skills := skipped }, w1)
  | (.error e, w1) =>
      ({ report with
          errors := report.errors ++ ["Failed to update skills: " ++ errMsg e],
          success := false }, w1)

/-- `update` (update.rs): version fast path, then wrapper regeneration and
the skills update with graceful degradation (errors folded into the
report), and finally the fatal `write_version_file`. -/
def update (w : World) (target_dir : FsPath) (force : Bool) :
    Except CatalystError UpdateReport × World :=
  let report := UpdateReport.new
  match read_version_file w target_dir with
  | .error e => (.error e, w)
  | .ok none =>
      (.error (.InvalidConfig
        "No .catalyst-version file found. This directory may not be initialized. Try catalyst init first."), w)
  | .ok (some installed_version) =>
      if installed_version == CATALYST_VERSION && !force then
        (.ok { report with success := true }, w)
      else
        let s1 := update_wrappers_step w target_dir report
        let s2 := update_skills_step s1.2 target_dir force s1.1
        match write_version_file s2.2 target_dir with
        | (.error e, w3) => (.error e, w3)
        | (.ok _, w3) => (.ok s2.1, w3)

/-- The subdirectory loop of `create_directory_structure` (init.rs): an
existing directory is skipped (idempotent) unless `force`; an existing
non-directory is an error; otherwise the directory is created and its
relative name recorded. -/
def cds_loop (w : World) (target_dir : FsPath) (force : Bool)
    (created : List String) :
    List FsPath → Except CatalystError (List String) × World
  | [] => (.ok created, w)
  | dir :: rest =>
      let dir_path := target_dir ++ dir
      if w.pathExists dir_path && !force then
        if !(w.isDir dir_path) then
          (.error (.InvalidPath (pathString dir_path ++ " exists but is not a directory")), w)
        else cds_loop w target_dir force created rest
      else
        cds_loop (w.mkDir dir_path) target_dir force (created ++ [pathString dir]) rest

/-- `create_directory_structure` (init.rs): require the `.claude` base
directory (created by an external tool), then create the four
subdirectories; permissions are a no-op in the path-map model. -/
def create_directory_structure (w : World) (target_dir : FsPath) (force : Bool) :
    Except CatalystError (List String) × World :=
  let claude_dir := target_dir ++ CLAUDE_DIR
  if !(w.pathExists claude_dir) then
    (.error (.InvalidPath (".claude directory not found at " ++ pathString claude_dir)), w)
  else if !(w.isDir claude_dir) then
    (.error (.InvalidPath (pathString claude_dir ++ " exists but is not a directory")), w)
  else
    cds_loop w target_dir force [] [HOOKS_DIR, SKILLS_DIR, AGENTS_DIR, COMMANDS_DIR]

/-- The settings document `create_settings_json` builds (init.rs); the
JSON content is opaque to every claim, only the deterministic dependence
on the flags and the platform extension is kept. -/
def settings_document (install_hooks install_tracker : Bool) (ext : String) :
    FileData :=
  .text ("settings:" ++
    (if install_hooks then "skill-activation-prompt." ++ ext ++ ";" else "") ++
    (if install_tracker then "file-change-tracker." ++ ext ++ ";" else ""))

/-- `create_settings_json` (init.rs): build the hooks document and write
it with `write_file_atomic` to `.claude/settings.json`. -/
def create_settings_json (w : World) (target_dir : FsPath)
    (install_hooks install_tracker : Bool) (platform : Platform) :
    Except CatalystError Bool × World :=
  let settings_path := target_dir ++ [".claude", "settings.json"]
  let ext := platform.hook_extension
  match write_file_atomic w settings_path
      (settings_document install_hooks install_tracker ext) with
  | (.error e, w1) => (.error e, w1)
  | (.ok _, w1) => (.ok true, w1)

/-- `copy_dir_recursive` (init.rs), flattened to its net effect like
`copy_skill_files`; write failures are `CatalystError::Io` here. -/
def copy_dir_recursive (w : World) (source_files : List (FsPath × String))
    (target : FsPath) : Except CatalystError Unit × World :=
  match source_files with
  | [] => (.ok (), w)
  | (rel, content) :: rest =>
      match w.fsWrite (target ++ rel) (.text content) with
      | .error e => (.error (.Io e), w)
      | .ok w1 => copy_dir_recursive w1 rest target

/-- `install_skill` (init.rs): validate the id against
`AVAILABLE_SKILLS`, refuse an existing skill directory without `force`,
then copy the embedded skill directory. -/
def install_skill (w : World) (target_dir : FsPath) (skill_id : String)
    (force : Bool) : Except CatalystError Unit × World :=
  if !(AVAILABLE_SKILLS.contains skill_id) then
    (.error (.InvalidConfig ("Invalid skill ID: " ++ skill_id ++
      ". Available skills: " ++ String.intercalate ", " AVAILABLE_SKILLS)), w)
  else
    let skills_dir := target_dir ++ SKILLS_DIR
    let skill_target := skills_dir ++ [skill_id]
    if w.pathExists skill_target && !force then
      (.error (.InvalidPath ("Skill directory already exists: " ++
        pathString skill_target)), w)
    else
      match alookup w.skillsBundle skill_id with
      | none => (.error (.InvalidPath ("Skill not found: " ++ skill_id)), w)
      | some skill_dir => copy_dir_recursive (w.mkDir skill_target) skill_dir.files skill_target

/-- The loop of `install_skills` (init.rs): per-skill errors are printed
and swallowed, the skill simply is not added to the installed list. -/
def install_skills_loop (w : World) (target_dir : FsPath) (force : Bool)
    (installed : List String) : List String → List String × World
  | [] => (installed, w)
  | skill_id :: rest =>
      match install_skill w target_dir skill_id force with
      | (.ok _, w1) => install_skills_loop w1 target_dir force (installed ++ [skill_id]) rest
      | (.error _, w1) => install_skills_loop w1 target_dir force installed rest

/-- `install_skills` (init.rs): progress-bar rendering is dropped; the
function never returns an error itself (per-skill failures are swallowed). -/
def install_skills (w : World) (target_dir : FsPath) (skill_ids : List String)
    (force : Bool) : Except CatalystError (List String) × World :=
  let r := install_skills_loop w target_dir force [] skill_ids
  (.ok r.1, r.2)

/-- The skill-rules document `generate_skill_rules` builds (init.rs);
content opaque to every claim, kept deterministic in the installed list. -/
def skill_rules_document (installed : List String) : FileData :=
  .text ("skill-rules:" ++ String.intercalate "," installed)

/-- `generate_skill_rules` (init.rs): build the rules document and write
it with `write_file_atomic` to `.claude/skills/skill-rules.json`. -/
def generate_skill_rules (w : World) (target_dir : FsPath)
    (installed_skills : List String) : Except CatalystError Unit × World :=
  let skill_rules_path := target_dir ++ SKILLS_DIR ++ ["skill-rules.json"]
  match write_file_atomic w skill_rules_path (skill_rules_document installed_skills) with
  | (.error e, w1) => (.error e, w1)
  | (.ok _, w1) => (.ok (), w1)

/-- `collect_file_hashes` (init.rs), flattened to its net effect: every
file strictly under `current_dir` is hashed and keyed by its path
relative to `base_dir` (`strip_prefix`).  Reads are total in the model,
so the per-file read-error path cannot fire. -/
def collect_file_hashes (w : World) (base_dir current_dir : FsPath) :
    List (FsPath × String) :=
  (w.files.filter (fun e => decide (current_dir <+: e.1) && decide (e.1 ≠ current_dir))).map
    (fun e => (e.1.drop base_dir.length, sha256hex e.2.render))

/-- The per-skill loop of `generate_skill_hashes` (init.rs). -/
def ghs_loop (w : World) (skills_dir : FsPath) (hashes : List (FsPath × String)) :
    List String → List (FsPath × String)
  | [] => hashes
  | skill_id :: rest =>
      ghs_loop w skills_dir
        (hashes ++ collect_file_hashes w skills_dir (skills_dir ++ [skill_id])) rest

/-- `generate_skill_hashes` (init.rs): hash every installed skill file and
write the flat path-to-hash map with `write_file_atomic` to
`target_dir/.claude/skills/.catalyst-hashes.json` (note the path: it joins
`SKILLS_DIR` and then the literal file name). -/
def generate_skill_hashes (w : World) (target_dir : FsPath)
    (installed_skills : List String) : Except CatalystError Unit × World :=
  let hashes_path := target_dir ++ SKILLS_DIR ++ [".catalyst-hashes.json"]
  let skills_dir := target_dir ++ SKILLS_DIR
  let hashes := ghs_loop w skills_dir [] installed_skills
  match write_file_atomic w hashes_path (.jsonMap hashes) with
  | (.error e, w1) => (.error e, w1)
  | (.ok _, w1) => (.ok (), w1)

/-- The body of `initialize` (init.rs) after the lock is held: directory
skeleton, wrappers and settings are fatal on error; skill-rules, the hash
manifest and the version file degrade to warnings. -/
def initRunBody (w : World) (config : InitConfig) :
    Except CatalystError InitReport × World :=
  let report0 := InitReport.new
  let platform := w.platform
  match create_directory_structure w config.directory config.force with
  | (.error e, w1) => (.error e, w1)
  | (.ok created_dirs, w1) =>
  let report1 := { report0 with created_dirs := created_dirs }
  match generate_wrapper_scripts w1 config.directory config.install_hooks
      config.install_tracker platform with
  | (.error e, w2) => (.error e, w2)
  | (.ok installed_hooks, w2) =>
  let report2 := { report1 with installed_hooks := installed_hooks }
  match create_settings_json w2 config.directory config.install_hooks
      config.install_tracker platform with
  | (.error e, w3) => (.error e, w3)
  | (.ok settings_created, w3) =>
  let report3 := { report2 with settings_created := settings_created }
  let skillsStep : Except CatalystError InitReport × World :=
    if !config.skills.isEmpty then
      match install_skills w3 config.directory config.skills config.force with
      | (.error e, w4) => (.error e, w4)
      | (.ok installed_skills, w4) =>
          let report4 := { report3 with installed_skills := installed_skills }
          if !installed_skills.isEmpty then
            let rulesStep : InitReport × World :=
              match generate_skill_rules w4 config.directory installed_skills with
              | (.ok _, w5) => (report4, w5)
              | (.error e, w5) =>
                  ({ report4 with warnings := report4.warnings ++
                      ["Failed to generate skill-rules.json: " ++ errMsg e] }, w5)
            let report5 := rulesStep.1
            let w5 := rulesStep.2
            match generate_skill_hashes w5 config.directory installed_skills with
            | (.ok _, w6) => (.ok report5, w6)
            | (.error e, w6) =>
                (.ok { report5 with warnings := report5.warnings ++
                    ["Failed to generate .catalyst-hashes.json: " ++ errMsg e] }, w6)
          else (.ok report4, w4)
    else (.ok report3, w3)
  match skillsStep with
  | (.error e, w6) => (.error e, w6)
  | (.ok report6, w6) =>
  match write_version_file w6 config.directory with
  | (.error e, w7) =>
      (.ok { report6 with warnings := report6.warnings ++
          ["Failed to write .catalyst-version: " ++ errMsg e] }, w7)
  | (.ok _, w7) => (.ok { report6 with version_file_created := true }, w7)

/-- `initialize` (init.rs): acquire the init lock, run the body, and
release the lock through the `InitLock` drop guard on every exit path. -/
def initRun (w : World) (config : InitConfig) :
    Except CatalystError InitReport × World :=
  match acquire_init_lock w config.directory with
  | (.error e, w1) => (.error e, w1)
  | (.ok _, w1) =>
      let r := initRunBody w1 config
      (r.1, release_init_lock r.2 (config.directory ++ [LOCK_FILE_NAME]))

theorem alookup_nil {κ α : Type} [DecidableEq κ] (k : κ) :
    alookup ([] : List (κ × α)) k = none := rfl

theorem alookup_cons {κ α : Type} [DecidableEq κ] (e : κ × α) (es : List (κ × α))
    (k : κ) : alookup (e :: es) k = if e.1 = k then some e.2 else alookup es k := rfl

theorem alookup_filter_ne {κ α : Type} [DecidableEq κ] (l : List (κ × α)) (p q : κ) :
    alookup (l.filter (fun e => decide (e.1 ≠ p))) q =
      if q = p then none else alookup l q := by
  induction l with
  | nil => simp [alookup]
  | cons e es ih =>
      by_cases hep : e.1 = p
      · have h1 : List.filter (fun e => decide (e.1 ≠ p)) (e :: es)
            = List.filter (fun e => decide (e.1 ≠ p)) es := by
          simp [List.filter_cons, hep]
        rw [h1, ih]
        by_cases hqp : q = p
        · simp [hqp]
        · have hne : e.1 ≠ q := by rw [hep]; exact fun h => hqp h.symm
          simp [hqp, alookup_cons, hne]
      · have h1 : List.filter (fun e => decide (e.1 ≠ p)) (e :: es)
            = e :: List.filter (fun e => decide (e.1 ≠ p)) es := by
          simp [List.filter_cons, hep]
        rw [h1, alookup_cons, ih, alookup_cons]
        by_cases heq : e.1 = q
        · have hqp : ¬ q = p := fun h => hep (heq.trans h)
          simp [heq, hqp]
        · simp [heq]

theorem alookup_ainsert {κ α : Type} [DecidableEq κ] (m : List (κ × α)) (k : κ)
    (v : α) (q : κ) :
    alookup (ainsert m k v) q = if q = k then some v else alookup m q := by
  unfold ainsert
  rw [alookup_cons, alookup_filter_ne]
  by_cases hqk : q = k
  · simp [hqk]
  · have hkq : ¬ k = q := fun h => hqk h.symm
    simp [hqk, hkq]

/-- The immutable part of a `World`: everything a file write or directory
creation leaves alone. -/
def sameEnv (w w' : World) : Prop :=
  w'.writeFail = w.writeFail ∧ w'.tempFail = w.tempFail ∧
  w'.persistFail = w.persistFail ∧ w'.running = w.running ∧
  w'.currentPid = w.currentPid ∧ w'.interference = w.interference ∧
  w'.platform = w.platform ∧ w'.skillsBundle = w.skillsBundle ∧ w'.now = w.now

theorem sameEnv_refl (w : World) : sameEnv w w :=
  ⟨rfl, rfl, rfl, rfl, rfl, rfl, rfl, rfl, rfl⟩

theorem sameEnv_trans {w1 w2 w3 : World} (h1 : sameEnv w1 w2) (h2 : sameEnv w2 w3) :
    sameEnv w1 w3 := by
  obtain ⟨a1, b1, c1, d1, e1, f1, g1, h1', i1⟩ := h1
  obtain ⟨a2, b2, c2, d2, e2, f2, g2, h2', i2⟩ := h2
  exact ⟨a2.trans a1, b2.trans b1, c2.trans c1, d2.trans d1, e2.trans e1,
    f2.trans f1, g2.trans g1, h2'.trans h1', i2.trans i1⟩

theorem sameEnv_putFile (w : World) (p : FsPath) (d : FileData) :
    sameEnv w (w.putFile p d) := ⟨rfl, rfl, rfl, rfl, rfl, rfl, rfl, rfl, rfl⟩

theorem sameEnv_mkDir (w : World) (p : FsPath) :
    sameEnv w (w.mkDir p) := ⟨rfl, rfl, rfl, rfl, rfl, rfl, rfl, rfl, rfl⟩

theorem sameEnv_removeFile (w : World) (p : FsPath) :
    sameEnv w (w.removeFile p) := ⟨rfl, rfl, rfl, rfl, rfl, rfl, rfl, rfl, rfl⟩

/-- A world transition made only of file writes and directory creations:
the environment is untouched and the new trace is the old one followed by
events none of which is a lock acquisition. -/
def NoLockStep (w w' : World) : Prop :=
  sameEnv w w' ∧
  ∃ l, w'.trace = w.trace ++ l ∧ ∀ q, Event.acquireLock q ∉ l

theorem NoLockStep.rfl (w : World) : NoLockStep w w :=
  ⟨sameEnv_refl w, [], by simp, by simp⟩

theorem NoLockStep.trans {w1 w2 w3 : World} (h1 : NoLockStep w1 w2)
    (h2 : NoLockStep w2 w3) : NoLockStep w1 w3 := by
  obtain ⟨e1, l1, t1, n1⟩ := h1
  obtain ⟨e2, l2, t2, n2⟩ := h2
  refine ⟨sameEnv_trans e1 e2, l1 ++ l2, ?_, ?_⟩
  · rw [t2, t1, List.append_assoc]
  · intro q hq
    rcases List.mem_append.mp hq with h | h
    · exact n1 q h
    · exact n2 q h

theorem NoLockStep.putFile (w : World) (p : FsPath) (d : FileData) :
    NoLockStep w (w.putFile p d) := by
  refine ⟨sameEnv_putFile w p d, [Event.writeFile p], Eq.refl _, ?_⟩
  intro q hq
  simp at hq

theorem NoLockStep.mkDir (w : World) (p : FsPath) :
    NoLockStep w (w.mkDir p) :=
  ⟨sameEnv_mkDir w p, [], by simp [World.mkDir], by simp⟩

theorem NoLockStep.fsWrite {w w' : World} {p : FsPath} {d : FileData}
    (h : w.fsWrite p d = .ok w') : NoLockStep w w' := by
  unfold World.fsWrite at h
  cases hw : w.writeFail p with
  | some k => rw [hw] at h; exact absurd h (by simp)
  | none =>
      rw [hw] at h
      cases h
      exact NoLockStep.putFile w p d

theorem write_version_file_noLock (w : World) (td : FsPath) :
    NoLockStep w (write_version_file w td).2 := by
  unfold write_version_file
  dsimp only
  split
  · exact NoLockStep.rfl w
  · exact NoLockStep.putFile w _ _

theorem fsWrite_match_noLock (w : World) (p : FsPath) (d : FileData) :
    ∀ r : Except IoErrorKind World, w.fsWrite p d = r →
      (∀ w', r = .ok w' → NoLockStep w w') := by
  intro r hr w' hw'
  subst hr
  exact NoLockStep.fsWrite hw'

theorem generate_wrapper_scripts_noLock (w : World) (td : FsPath)
    (ih it : Bool) (pf : Platform) :
    NoLockStep w (generate_wrapper_scripts w td ih it pf).2 := by
  unfold generate_wrapper_scripts
  dsimp only
  split
  · next e w1 heq =>
      -- first step errored: the world is the unchanged input world
      split at heq
      · split at heq
        · cases heq
          exact NoLockStep.rfl w
        · cases heq
      · cases heq
  · next installed w1 heq =>
      have h1 : NoLockStep w w1 := by
        split at heq
        · split at heq
          · cases heq
          · cases heq
            exact NoLockStep.fsWrite (by assumption)
        · cases heq
          exact NoLockStep.rfl w
      split
      · split
        · exact h1
        · exact h1.trans (NoLockStep.fsWrite (by assumption))
      · exact h1

theorem copy_skill_files_noLock (fs : List (FsPath × String)) :
    ∀ (w : World) (sp td : FsPath), NoLockStep w (copy_skill_files w fs sp td).2 := by
  induction fs with
  | nil => intro w sp td; exact NoLockStep.rfl w
  | cons e rest ihr =>
      intro w sp td
      obtain ⟨rel, content⟩ := e
      unfold copy_skill_files
      dsimp only
      split
      · exact NoLockStep.rfl w
      · exact (NoLockStep.putFile w _ _).trans (ihr _ _ _)

theorem regenerate_hashes_noLock (w : World) (td : FsPath) (upd : List String) :
    NoLockStep w (regenerate_hashes w td upd).2 := by
  unfold regenerate_hashes
  dsimp only
  split
  · exact NoLockStep.rfl w
  · split
    · exact NoLockStep.rfl w
    · split
      · exact NoLockStep.rfl w
      · exact NoLockStep.putFile w _ _

theorem update_skills_loop_noLock (es : List (String × String)) :
    ∀ (w : World) (sd : FsPath) (force : Bool) (upd : List String)
      (sk : List SkippedSkill),
      NoLockStep w (update_skills_loop w sd force upd sk es).2 := by
  induction es with
  | nil => intro w sd force upd sk; exact NoLockStep.rfl w
  | cons e rest ihr =>
      intro w sd force upd sk
      obtain ⟨skill_name, expected⟩ := e
      unfold update_skills_loop
      dsimp only
      split
      · exact ihr _ _ _ _ _
      · exact NoLockStep.rfl w
      · split
        · exact ihr _ _ _ _ _
        · split
          · next skill_dir heqb =>
              split
              · next e w1 heq =>
                  have h := copy_skill_files_noLock skill_dir.files w [skill_name]
                    (sd ++ [skill_name])
                  rw [heq] at h
                  exact h
              · next w1 heq =>
                  have h := copy_skill_files_noLock skill_dir.files w [skill_name]
                    (sd ++ [skill_name])
                  rw [heq] at h
                  exact h.trans (ihr _ _ _ _ _)
          · exact ihr _ _ _ _ _

theorem update_skills_noLock (w : World) (td : FsPath) (force : Bool) :
    NoLockStep w (update_skills w td force).2 := by
  unfold update_skills
  dsimp only
  split
  · exact NoLockStep.rfl w
  · split
    · exact NoLockStep.rfl w
    · next stored heqp =>
      split
      · next e w1 heq =>
          have h := update_skills_loop_noLock stored.skills w (td ++ SKILLS_DIR) force [] []
          rw [heq] at h
          exact h
      · next upd sk w1 heq =>
          have h1 : NoLockStep w w1 := by
            have h := update_skills_loop_noLock stored.skills w (td ++ SKILLS_DIR) force [] []
            rw [heq] at h
            exact h
          split
          · exact h1
          · split
            · next e w2 heq2 =>
                have h := regenerate_hashes_noLock w1 td upd
                rw [heq2] at h
                exact h1.trans h
            · next w2 heq2 =>
                have h := regenerate_hashes_noLock w1 td upd
                rw [heq2] at h
                exact h1.trans h

theorem update_wrappers_step_noLock (w : World) (td : FsPath) (r : UpdateReport) :
    NoLockStep w (update_wrappers_step w td r).2 := by
  unfold update_wrappers_step
  have h := generate_wrapper_scripts_noLock w td true true w.platform
  split
  · next hooks w1 heq => rw [heq] at h; exact h
  · next e w1 heq => rw [heq] at h; exact h

theorem update_skills_step_noLock (w : World) (td : FsPath) (force : Bool)
    (r : UpdateReport) : NoLockStep w (update_skills_step w td force r).2 := by
  unfold update_skills_step
  have h := update_skills_noLock w td force
  split
  · next upd sk w1 heq => rw [heq] at h; exact h
  · next e w1 heq => rw [heq] at h; exact h

theorem update_noLock (w : World) (td : FsPath) (force : Bool) :
    NoLockStep w (update w td force).2 := by
  unfold update
  dsimp only
  split
  · exact NoLockStep.rfl w
  · exact NoLockStep.rfl w
  · split
    · exact NoLockStep.rfl w
    · have h1 := update_wrappers_step_noLock w td UpdateReport.new
      have h2 := update_skills_step_noLock (update_wrappers_step w td UpdateReport.new).2
        td force (update_wrappers_step w td UpdateReport.new).1
      have h3 := write_version_file_noLock
        (update_skills_step (update_wrappers_step w td UpdateReport.new).2 td force
          (update_wrappers_step w td UpdateReport.new).1).2 td
      have h12 := h1.trans h2
      split
      · next e w3 heq3 => rw [heq3] at h3; exact h12.trans h3
      · next w3 heq3 => rw [heq3] at h3; exact h12.trans h3

/-- Whether an event is a lock acquisition. -/
def isAcquireEvent : Event → Bool
  | .acquireLock _ => true
  | _ => false

theorem filter_acquire_eq_nil {l : List Event}
    (h : ∀ q, Event.acquireLock q ∉ l) : l.filter isAcquireEvent = [] := by
  induction l with
  | nil => rfl
  | cons e rest ihr =>
      have he : isAcquireEvent e = false := by
        cases e with
        | writeFile p => rfl
        | acquireLock p => exact absurd (List.mem_cons_self _ _) (h p)
        | releaseLock p => rfl
      rw [List.filter_cons, he]
      simp only [Bool.false_eq_true, if_false]
      exact ihr (fun q hq => h q (List.mem_cons_of_mem _ hq))

/-- A fixed directory content for counterexample worlds: an installed
version marker recording an old version, nothing else. -/
def cxWorldC1 : World :=
  { files := [(["t", ".catalyst-version"], FileData.text "0.0.9\n")],
    dirs := [["t", ".claude"]],
    trace := [],
    writeFail := fun _ => none,
    tempFail := fun _ => none,
    persistFail := fun _ => none,
    running := fun _ => false,
    currentPid := 4321,
    interference := none,
    platform := Platform.Linux,
    skillsBundle := [],
    now := "2026-01-01T00:00:00Z" }

/-- C1, counterexample: on a directory whose installed version is older
than the current one, `update` writes the version marker, yet its trace
contains no lock acquisition at all — so the claim that `update` acquires
the init lock before any manifest or version-marker write is false of the
code: `update` (update.rs) never calls `acquire_init_lock`. -/
theorem C1_counterexample :
    ((update cxWorldC1 ["t"] false).2.trace.any isAcquireEvent) = false ∧
      Event.writeFile (["t"] ++ VERSION_FILE) ∈ (update cxWorldC1 ["t"] false).2.trace := by
  constructor
  · decide
  · decide

/-- C1 (amended): `update` never acquires the init lock on any code path:
for every world, target directory and force flag, the trace after `update`
contains exactly the lock acquisitions it contained before, so every
manifest and version-marker write `update` performs happens without the
lock being acquired. -/
theorem C1_update_never_acquires_lock (w : World) (td : FsPath) (force : Bool) :
    (update w td force).2.trace.filter isAcquireEvent =
      w.trace.filter isAcquireEvent := by
  obtain ⟨-, l, htr, hnl⟩ := update_noLock w td force
  rw [htr, List.filter_append, filter_acquire_eq_nil hnl, List.append_nil]

/-- A world whose `.claude` parent directory refuses temp-file creation
with `PermissionDenied`. -/
def cxWorldC3 : World :=
  { files := [],
    dirs := [["t", ".claude"]],
    trace := [],
    writeFail := fun _ => none,
    tempFail := fun p => if p = ["t", ".claude"] then some IoErrorKind.PermissionDenied else none,
    persistFail := fun _ => none,
    running := fun _ => false,
    currentPid := 1,
    interference := none,
    platform := Platform.Linux,
    skillsBundle := [],
    now := "2026-01-01T00:00:00Z" }

/-- C3, counterexample: when temp-file creation fails with
`PermissionDenied`, `write_file_atomic` does not fail with a typed error —
it silently falls back to a plain write and returns `Ok(false)`
(init.rs: `is_temp_creation_error` routes `PermissionDenied`/`NotFound`
into the fallback branch, exactly like the cross-device case). -/
theorem C3_counterexample :
    (write_file_atomic cxWorldC3 ["t", ".claude", "settings.json"]
      (FileData.text "x")).1 = .ok false := rfl

/-- C3 (amended): when temp-file creation fails for permission-denied or
missing-parent reasons, `write_file_atomic` falls back to a direct
`fs::write` and reports the degraded guarantee by returning `Ok(false)`;
only a failure of the direct write itself fails the whole operation, and
then as an untyped `CatalystError::Io` error. -/
theorem C3_temp_creation_failure_falls_back (w : World) (path : FsPath)
    (d : FileData) (k : IoErrorKind)
    (hne : path.isEmpty = false)
    (htf : w.tempFail path.dropLast = some k)
    (hk : is_temp_creation_error k = true) :
    (w.writeFail path = none →
        write_file_atomic w path d = (.ok false, w.putFile path d)) ∧
    (∀ k2, w.writeFail path = some k2 →
        write_file_atomic w path d = (.error (.Io k2), w)) := by
  have hta : try_atomic_write w path d = (.error k, w) := by
    unfold try_atomic_write
    simp [hne, htf]
  constructor
  · intro hwf
    unfold write_file_atomic
    rw [hta]
    simp [hk, World.fsWrite, hwf]
  · intro k2 hwf
    unfold write_file_atomic
    rw [hta]
    simp [hk, World.fsWrite, hwf]

/-- Witness for the amended C3 theorem at a concrete world. -/
theorem C3_temp_creation_failure_falls_back_witness :
    write_file_atomic cxWorldC3 ["t", ".claude", "settings.json"] (FileData.text "x")
      = (.ok false, cxWorldC3.putFile ["t", ".claude", "settings.json"] (FileData.text "x")) :=
  (C3_temp_creation_failure_falls_back cxWorldC3 ["t", ".claude", "settings.json"]
    (FileData.text "x") IoErrorKind.PermissionDenied rfl (by decide) (by decide)).1 rfl

/-- C9: when the hash-manifest file is absent at the path `update_skills`
reads (`target_dir/.catalyst-hashes.json`), the function returns success
with empty updated and skipped lists and an unchanged world (no skill
refresh, no manifest write, no error); a manifest whose skills map is
empty gives the indistinguishable same result. -/
theorem C9_missing_manifest_is_silent_noop :
    (∀ (w : World) (td : FsPath) (force : Bool),
        alookup w.files (td ++ HASHES_FILE) = none →
          update_skills w td force = (.ok ([], []), w)) ∧
    (∀ (w : World) (td : FsPath) (force : Bool) (v u : String)
        (hk : List (String × String)),
        alookup w.files (td ++ HASHES_FILE) =
            some (.jsonHashes { version := v, updated_at := u, skills := [], hooks := hk }) →
          update_skills w td force = (.ok ([], []), w)) := by
  constructor
  · intro w td force h
    unfold update_skills
    dsimp only
    rw [h]
  · intro w td force v u hk h
    unfold update_skills
    dsimp only
    rw [h]
    simp [parseCatalystHashes, update_skills_loop]

/-- Witness for C9 at a concrete world with no manifest file and another
with an empty manifest. -/
theorem C9_missing_manifest_is_silent_noop_witness :
    update_skills cxWorldC3 ["t"] false = (.ok ([], []), cxWorldC3) ∧
      update_skills cxWorldC1 ["t"] true = (.ok ([], []), cxWorldC1) := by
  constructor
  · exact C9_missing_manifest_is_silent_noop.1 cxWorldC3 ["t"] false rfl
  · exact C9_missing_manifest_is_silent_noop.1 cxWorldC1 ["t"] true (by decide)

theorem acquire_lock_busy (w : World) (td : FsPath) (s : String) (pid : Nat)
    (hm : alookup w.files (td ++ [LOCK_FILE_NAME]) = some (.text s))
    (hp : parse_u32 (strTrim s) = some pid)
    (hv : is_valid_pid pid = true)
    (hr : w.running pid = true) :
    acquire_init_lock w td =
      (.error (.InitInProgress pid (pathString (td ++ [LOCK_FILE_NAME]))), w) := by
  have htc : try_create_lock_file w (td ++ [LOCK_FILE_NAME]) w.currentPid =
      (.error (.Io .AlreadyExists), w) := by
    unfold try_create_lock_file
    rw [hm]
  unfold acquire_init_lock
  dsimp only
  rw [htc, hm]
  dsimp only [FileData.render]
  rw [hp]
  dsimp only
  rw [hv, hr]
  simp

theorem acquire_lock_stale_retry (w : World) (td : FsPath) (s : String)
    (hm : alookup w.files (td ++ [LOCK_FILE_NAME]) = some (.text s))
    (hstale : ∀ pid, parse_u32 (strTrim s) = some pid →
        is_valid_pid pid = false ∨ w.running pid = false) :
    acquire_init_lock w td =
      try_create_lock_file
        (applyInterference (w.removeFile (td ++ [LOCK_FILE_NAME]))
          (td ++ [LOCK_FILE_NAME]))
        (td ++ [LOCK_FILE_NAME]) w.currentPid := by
  have htc : try_create_lock_file w (td ++ [LOCK_FILE_NAME]) w.currentPid =
      (.error (.Io .AlreadyExists), w) := by
    unfold try_create_lock_file
    rw [hm]
  conv =>
    lhs
    rw [acquire_init_lock]
  dsimp only
  rw [htc, hm]
  dsimp only [FileData.render]
  cases hp : parse_u32 (strTrim s) with
  | none => rfl
  | some pid =>
      rcases hstale pid hp with hv | hr
      · dsimp only
        rw [hv]
        simp
      · dsimp only
        by_cases hvb : is_valid_pid pid = true
        · rw [hvb, hr]
          simp
        · rw [Bool.not_eq_true] at hvb
          rw [hvb]
          simp

theorem retry_with_interference (w : World) (lf : FsPath) (pid : Nat) (s2 : String)
    (hi : w.interference = some s2) :
    (try_create_lock_file (applyInterference (w.removeFile lf) lf) lf pid).1 =
      .error (.Io .AlreadyExists) := by
  unfold try_create_lock_file applyInterference
  rw [show (w.removeFile lf).interference = w.interference from rfl, hi]
  dsimp only
  rw [alookup_cons]
  simp

theorem retry_without_interference (w : World) (lf : FsPath) (pid : Nat)
    (hi : w.interference = none) :
    (try_create_lock_file (applyInterference (w.removeFile lf) lf) lf pid).1 =
      .ok () := by
  unfold try_create_lock_file applyInterference
  rw [show (w.removeFile lf).interference = w.interference from rfl, hi]
  dsimp only
  rw [show (w.removeFile lf).files =
    w.files.filter (fun e => decide (e.1 ≠ lf)) from rfl]
  rw [alookup_filter_ne]
  simp

/-- A directory holding a stale lock marker (dead pid 4242), with a
competing process that recreates the marker inside the race window. -/
def cxWorldC5 : World :=
  { files := [(["t", ".catalyst.lock"], FileData.text "4242")],
    dirs := [],
    trace := [],
    writeFail := fun _ => none,
    tempFail := fun _ => none,
    persistFail := fun _ => none,
    running := fun _ => false,
    currentPid := 9,
    interference := some "7777",
    platform := Platform.Linux,
    skillsBundle := [],
    now := "2026-01-01T00:00:00Z" }

/-- Like `cxWorldC5` but with an unparseable marker and no competing
process in the race window. -/
def cxWorldC5b : World :=
  { cxWorldC5 with
    files := [(["t", ".catalyst.lock"], FileData.text "not-a-number")],
    interference := none }

/-- C5, counterexample: a stale marker (dead pid 4242) is deleted and the
create retried, but when the retry collides with a marker freshly created
by another process, `acquire_init_lock` surfaces the raw
`CatalystError::Io(AlreadyExists)` from `try_create_lock_file`, not the
typed `InitInProgress` error the claim promises (init.rs returns the
retried `try_create_lock_file` result unwrapped). -/
theorem C5_counterexample :
    (acquire_init_lock cxWorldC5 ["t"]).1 = .error (.Io .AlreadyExists) := rfl

/-- C5 (amended): on a stale or invalid marker, `acquire_init_lock`
deletes the marker and retries the atomic create exactly once — the
result is literally the single retried `try_create_lock_file` against the
post-race-window state, with no further retry; if that single retry
collides with a freshly created marker, the failure is surfaced as the
raw I/O already-exists error (not the typed initialization-in-progress
error, and not a loop); without a collision the retry acquires the lock. -/
theorem C5_stale_marker_retries_exactly_once (w : World) (td : FsPath) (s : String)
    (hm : alookup w.files (td ++ [LOCK_FILE_NAME]) = some (.text s))
    (hstale : ∀ pid, parse_u32 (strTrim s) = some pid →
        is_valid_pid pid = false ∨ w.running pid = false) :
    acquire_init_lock w td =
      try_create_lock_file
        (applyInterference (w.removeFile (td ++ [LOCK_FILE_NAME]))
          (td ++ [LOCK_FILE_NAME]))
        (td ++ [LOCK_FILE_NAME]) w.currentPid ∧
    (∀ s2, w.interference = some s2 →
        (acquire_init_lock w td).1 = .error (.Io .AlreadyExists)) ∧
    (w.interference = none → (acquire_init_lock w td).1 = .ok ()) := by
  have h1 := acquire_lock_stale_retry w td s hm hstale
  refine ⟨h1, ?_, ?_⟩
  · intro s2 hi
    rw [h1]
    exact retry_with_interference w _ _ s2 hi
  · intro hi
    rw [h1]
    exact retry_without_interference w _ _ hi

/-- Witness for the amended C5 theorem: an unparseable marker with no
race-window collision is reclaimed and the single retry acquires. -/
theorem C5_stale_marker_retries_exactly_once_witness :
    (acquire_init_lock cxWorldC5b ["t"]).1 = .ok () :=
  (C5_stale_marker_retries_exactly_once cxWorldC5b ["t"] "not-a-number" rfl
    (fun pid h => by
      rw [show parse_u32 (strTrim "not-a-number") = none from rfl] at h
      cases h)).2.2 rfl

/-- A directory whose lock marker records pid 1 — the pid of the init
process, which is always running — while every pid is reported running. -/
def cxWorldC6 : World :=
  { files := [(["t", ".catalyst.lock"], FileData.text "1")],
    dirs := [],
    trace := [],
    writeFail := fun _ => none,
    tempFail := fun _ => none,
    persistFail := fun _ => none,
    running := fun _ => true,
    currentPid := 4242,
    interference := none,
    platform := Platform.Linux,
    skillsBundle := [],
    now := "2026-01-01T00:00:00Z" }

/-- C6, counterexample: the marker records pid 1 and that process is
running (`running` answers true for every pid), yet `acquire_init_lock`
does not fail — `is_valid_pid` rejects pid 1 before the liveness check, so
the marker is deleted and the lock acquired (init.rs routes invalid pids
to the stale branch regardless of liveness). -/
theorem C6_counterexample :
    (acquire_init_lock cxWorldC6 ["t"]).1 = .ok () := rfl

/-- C6 (amended): for every directory whose lock marker records a pid that
passes the validity check (neither 0 nor 1) and names a currently running
process, `acquire_init_lock` fails immediately — no deletion, no retry,
the world unchanged — with the typed `InitInProgress` error carrying that
pid and the marker path. -/
theorem C6_running_pid_fails_immediately (w : World) (td : FsPath) (s : String)
    (pid : Nat)
    (hm : alookup w.files (td ++ [LOCK_FILE_NAME]) = some (.text s))
    (hp : parse_u32 (strTrim s) = some pid)
    (hv : is_valid_pid pid = true)
    (hr : w.running pid = true) :
    acquire_init_lock w td =
      (.error (.InitInProgress pid (pathString (td ++ [LOCK_FILE_NAME]))), w) :=
  acquire_lock_busy w td s pid hm hp hv hr

/-- A directory whose marker was written by a live competing process with
pid 5. -/
def cxWorldC6b : World :=
  { cxWorldC6 with
    files := [(["t", ".catalyst.lock"], FileData.text "5")],
    running := fun p => p == 5,
    currentPid := 9 }

/-- Witness for the amended C6 theorem at a concrete directory. -/
theorem C6_running_pid_fails_immediately_witness :
    acquire_init_lock cxWorldC6b ["t"] =
      (.error (.InitInProgress 5 "t/.catalyst.lock"), cxWorldC6b) :=
  C6_running_pid_fails_immediately cxWorldC6b ["t"] "5" 5 rfl (by decide) (by decide) rfl

/-- A directory whose lock marker was written by this very process
(pid 4321), which is of course running. -/
def cxWorldC10 : World :=
  { files := [(["t", ".catalyst.lock"], FileData.text (toString (4321 : Nat)))],
    dirs := [],
    trace := [],
    writeFail := fun _ => none,
    tempFail := fun _ => none,
    persistFail := fun _ => none,
    running := fun _ => true,
    currentPid := 4321,
    interference := none,
    platform := Platform.Linux,
    skillsBundle := [],
    now := "2026-01-01T00:00:00Z" }

/-- C10: the pid validity check rejects exactly pids 0 and 1; and a lock
marker containing the current process's own pid is never treated as
stale — provided the own pid is a real one (neither 0 nor 1, running, and
the marker parses back to it), a second `acquire_init_lock` from the same
process fails with `InitInProgress` naming that pid, so a single process
cannot acquire the lock for a directory twice. -/
theorem C10_own_pid_never_stale :
    (∀ p : Nat, is_valid_pid p = false ↔ (p = 0 ∨ p = 1)) ∧
    (∀ (w : World) (td : FsPath),
        w.currentPid ≠ 0 → w.currentPid ≠ 1 →
        parse_u32 (strTrim (toString w.currentPid)) = some w.currentPid →
        w.running w.currentPid = true →
        alookup w.files (td ++ [LOCK_FILE_NAME]) =
            some (.text (toString w.currentPid)) →
        acquire_init_lock w td =
          (.error (.InitInProgress w.currentPid
            (pathString (td ++ [LOCK_FILE_NAME]))), w)) := by
  constructor
  · intro p
    constructor
    · intro h
      by_cases h0 : p = 0
      · exact Or.inl h0
      · by_cases h1 : p = 1
        · exact Or.inr h1
        · exfalso
          rw [show is_valid_pid p = (p != 0 && p != 1) from rfl] at h
          simp [h0, h1] at h
    · rintro (rfl | rfl) <;> rfl
  · intro w td h0 h1 hp hr hm
    have hv : is_valid_pid w.currentPid = true := by
      rw [show is_valid_pid w.currentPid = (w.currentPid != 0 && w.currentPid != 1) from rfl]
      simp [h0, h1]
    exact acquire_lock_busy w td (toString w.currentPid) w.currentPid hm hp hv hr

/-- Witness for C10: the validity check at pids 0, 1, 2 and the own-pid
lock refusal at a concrete directory. -/
theorem C10_own_pid_never_stale_witness :
    (is_valid_pid 0 = false ∧ is_valid_pid 1 = false ∧ is_valid_pid 4321 = true) ∧
    acquire_init_lock cxWorldC10 ["t"] =
      (.error (.InitInProgress 4321 "t/.catalyst.lock"), cxWorldC10) :=
  ⟨⟨rfl, rfl, rfl⟩,
    C10_own_pid_never_stale.2 cxWorldC10 ["t"] (by decide) (by decide) (by decide)
      rfl rfl⟩

theorem alookup_putFile (w : World) (p : FsPath) (d : FileData) (q : FsPath) :
    alookup (w.putFile p d).files q = if p = q then some d else alookup w.files q := by
  rw [show (w.putFile p d).files = (p, d) :: w.files from rfl, alookup_cons]

theorem update_fast_path (w : World) (td : FsPath) (d : FileData)
    (hm : alookup w.files (td ++ VERSION_FILE) = some d)
    (ht : strTrim d.render = CATALYST_VERSION) :
    update w td false = (.ok { UpdateReport.new with success := true }, w) := by
  have hv : read_version_file w td = .ok (some (strTrim d.render)) := by
    unfold read_version_file
    rw [hm]
  unfold update
  rw [hv, ht]
  simp

theorem update_ok_version_current (w : World) (td : FsPath) (force : Bool)
    (r : UpdateReport) (w' : World) (h : update w td force = (.ok r, w')) :
    ∃ d, alookup w'.files (td ++ VERSION_FILE) = some d ∧
      strTrim d.render = CATALYST_VERSION := by
  unfold update at h
  dsimp only at h
  split at h
  · simp at h
  · simp at h
  · next v heq =>
      split at h
      · next hc =>
          -- fast path: nothing written, the stored version already matches
          have hww : w' = w := by
            have := congrArg Prod.snd h
            exact this.symm
          rw [hww]
          unfold read_version_file at heq
          cases halk : alookup w.files (td ++ VERSION_FILE) with
          | none => rw [halk] at heq; simp at heq
          | some d =>
              rw [halk] at heq
              simp only [Except.ok.injEq, Option.some.injEq] at heq
              refine ⟨d, rfl, ?_⟩
              rw [heq]
              have hb : (v == CATALYST_VERSION) = true := by
                simp only [Bool.and_eq_true] at hc
                exact hc.1
              exact eq_of_beq hb
      · -- slow path: the last step wrote the version marker
        split at h
        · simp at h
        · next w3 heq3 =>
            simp only [Prod.mk.injEq, Except.ok.injEq] at h
            obtain ⟨-, hw3⟩ := h
            subst hw3
            unfold write_version_file at heq3
            dsimp only at heq3
            split at heq3
            · simp at heq3
            · simp only [Prod.mk.injEq] at heq3
              obtain ⟨-, hw3'⟩ := heq3
              rw [← hw3']
              refine ⟨.text (CATALYST_VERSION ++ "\n"), ?_, by decide⟩
              rw [alookup_putFile]
              simp

/-- A directory whose installed version marker equals the current tool
version. -/
def cxWorldC7 : World :=
  { cxWorldC1 with
    files := [(["t", ".catalyst-version"], FileData.text (CATALYST_VERSION ++ "\n"))] }

/-- C7: when the installed version marker (trimmed) equals
`CATALYST_VERSION` and `force` is not set, `update` returns the no-op
success report and the world unchanged — no wrapper write, no skill copy,
no manifest write, no version-marker write, no trace event; consequently,
after any successful `update`, a second `update` without `force` writes
nothing. -/
theorem C7_version_match_is_noop :
    (∀ (w : World) (td : FsPath) (d : FileData),
        alookup w.files (td ++ VERSION_FILE) = some d →
        strTrim d.render = CATALYST_VERSION →
        update w td false = (.ok { UpdateReport.new with success := true }, w)) ∧
    (∀ (w : World) (td : FsPath) (force : Bool) (r : UpdateReport) (w' : World),
        update w td force = (.ok r, w') →
        update w' td false = (.ok { UpdateReport.new with success := true }, w')) := by
  constructor
  · exact update_fast_path
  · intro w td force r w' h
    obtain ⟨d, hm, ht⟩ := update_ok_version_current w td force r w' h
    exact update_fast_path w' td d hm ht

/-- Witness for C7: the fast path at a concrete up-to-date directory, and
idempotence right after a concrete successful update. -/
theorem C7_version_match_is_noop_witness :
    update cxWorldC7 ["t"] false =
      (.ok { UpdateReport.new with success := true }, cxWorldC7) ∧
    update (update cxWorldC1 ["t"] false).2 ["t"] false =
      (.ok { UpdateReport.new with success := true }, (update cxWorldC1 ["t"] false).2) :=
  ⟨C7_version_match_is_noop.1 cxWorldC7 ["t"]
      (FileData.text (CATALYST_VERSION ++ "\n")) rfl (by decide),
    C7_version_match_is_noop.2 cxWorldC1 ["t"] false
      { UpdateReport.new with
          updated_hooks := ["skill-activation-prompt.sh", "file-change-tracker.sh"] }
      (update cxWorldC1 ["t"] false).2 rfl⟩

theorem fsAppend_inj (s a b : FsPath) : s ++ a = s ++ b ↔ a = b :=
  ⟨List.append_cancel_left, fun h => h ▸ rfl⟩

theorem write_version_file_fail (w : World) (td : FsPath) (e : IoErrorKind)
    (h : w.writeFail (td ++ VERSION_FILE) = some e) :
    write_version_file w td =
      (.error (.FileWriteFailed (td ++ VERSION_FILE) e), w) := by
  unfold write_version_file
  dsimp only
  rw [h]

theorem write_version_file_ok (w : World) (td : FsPath)
    (h : w.writeFail (td ++ VERSION_FILE) = none) :
    write_version_file w td =
      (.ok (), w.putFile (td ++ VERSION_FILE)
        (.text (CATALYST_VERSION ++ "\n"))) := by
  unfold write_version_file
  dsimp only
  rw [h]

theorem write_file_atomic_ok (w : World) (path : FsPath) (d : FileData)
    (hne : path.isEmpty = false)
    (htf : w.tempFail path.dropLast = none)
    (hpf : w.persistFail path = none) :
    write_file_atomic w path d = (.ok true, w.putFile path d) := by
  have hta : try_atomic_write w path d = (.ok (), w.putFile path d) := by
    unfold try_atomic_write
    simp [hne, htf, hpf]
  unfold write_file_atomic
  rw [hta]

theorem write_file_atomic_hard_fail (w : World) (path : FsPath) (d : FileData)
    (k : IoErrorKind)
    (hne : path.isEmpty = false)
    (htf : w.tempFail path.dropLast = none)
    (hpf : w.persistFail path = some k)
    (hk : (is_cross_device_error k || is_temp_creation_error k) = false) :
    write_file_atomic w path d = (.error (.Io k), w) := by
  have hta : try_atomic_write w path d = (.error k, w) := by
    unfold try_atomic_write
    simp [hne, htf, hpf]
  unfold write_file_atomic
  rw [hta]
  simp [hk]

theorem acquire_free (w : World) (td : FsPath)
    (h : alookup w.files (td ++ [LOCK_FILE_NAME]) = none) :
    acquire_init_lock w td =
      (.ok (), { w with
        files := (td ++ [LOCK_FILE_NAME],
          FileData.text (toString w.currentPid)) :: w.files,
        trace := w.trace ++ [Event.acquireLock (td ++ [LOCK_FILE_NAME])] }) := by
  have htc : try_create_lock_file w (td ++ [LOCK_FILE_NAME]) w.currentPid =
      (.ok (), { w with
        files := (td ++ [LOCK_FILE_NAME],
          FileData.text (toString w.currentPid)) :: w.files,
        trace := w.trace ++ [Event.acquireLock (td ++ [LOCK_FILE_NAME])] }) := by
    unfold try_create_lock_file
    rw [h]
  unfold acquire_init_lock
  dsimp only
  rw [htc]

theorem update_slow_path (w : World) (td : FsPath) (force : Bool) (d : FileData)
    (hm : alookup w.files (td ++ VERSION_FILE) = some d)
    (hc : ((strTrim d.render == CATALYST_VERSION) && !force) = false) :
    update w td force =
      (match write_version_file
          (update_skills_step (update_wrappers_step w td UpdateReport.new).2 td
            force (update_wrappers_step w td UpdateReport.new).1).2 td with
        | (.error e, w3) => (.error e, w3)
        | (.ok _, w3) =>
            (.ok (update_skills_step (update_wrappers_step w td UpdateReport.new).2
              td force (update_wrappers_step w td UpdateReport.new).1).1, w3)) := by
  have hv : read_version_file w td = .ok (some (strTrim d.render)) := by
    unfold read_version_file
    rw [hm]
  unfold update
  rw [hv]
  dsimp only
  rw [hc]
  simp

theorem update_version_write_fatal (w : World) (td : FsPath) (force : Bool)
    (d : FileData) (e : IoErrorKind)
    (hm : alookup w.files (td ++ VERSION_FILE) = some d)
    (hc : ((strTrim d.render == CATALYST_VERSION) && !force) = false)
    (he : w.writeFail (td ++ VERSION_FILE) = some e) :
    (update w td force).1 = .error (.FileWriteFailed (td ++ VERSION_FILE) e) := by
  rw [update_slow_path w td force d hm hc]
  have henv : sameEnv w
      (update_skills_step (update_wrappers_step w td UpdateReport.new).2 td
        force (update_wrappers_step w td UpdateReport.new).1).2 :=
    ((update_wrappers_step_noLock w td UpdateReport.new).trans
      (update_skills_step_noLock (update_wrappers_step w td UpdateReport.new).2 td
        force (update_wrappers_step w td UpdateReport.new).1)).1
  rw [write_version_file_fail _ td e (by rw [henv.1]; exact he)]

theorem update_graceful_completion (w : World) (td : FsPath) (force : Bool)
    (d : FileData)
    (hm : alookup w.files (td ++ VERSION_FILE) = some d)
    (hc : ((strTrim d.render == CATALYST_VERSION) && !force) = false)
    (he : w.writeFail (td ++ VERSION_FILE) = none) :
    (update w td force).1 =
      .ok (update_skills_step (update_wrappers_step w td UpdateReport.new).2 td
        force (update_wrappers_step w td UpdateReport.new).1).1 := by
  rw [update_slow_path w td force d hm hc]
  have henv : sameEnv w
      (update_skills_step (update_wrappers_step w td UpdateReport.new).2 td
        force (update_wrappers_step w td UpdateReport.new).1).2 :=
    ((update_wrappers_step_noLock w td UpdateReport.new).trans
      (update_skills_step_noLock (update_wrappers_step w td UpdateReport.new).2 td
        force (update_wrappers_step w td UpdateReport.new).1)).1
  rw [write_version_file_ok _ td (by rw [henv.1]; exact he)]

theorem cds_loop_props (td : FsPath) (dirs : List FsPath) :
    ∀ (w : World) (created : List String),
      (∀ d ∈ dirs, w.isFile (td ++ d) = false) →
      ∃ cr w', cds_loop w td false created dirs = (.ok cr, w') ∧
        w'.files = w.files ∧ w'.trace = w.trace ∧ sameEnv w w' ∧
        (∀ p, p ∈ w'.dirs → p ∈ w.dirs ∨ ∃ d, d ∈ dirs ∧ p = td ++ d) := by
  induction dirs with
  | nil =>
      intro w created h
      exact ⟨created, w, rfl, rfl, rfl, sameEnv_refl w, fun p hp => Or.inl hp⟩
  | cons dir rest ihr =>
      intro w created h
      unfold cds_loop
      dsimp only
      by_cases hex : (w.pathExists (td ++ dir) && !false) = true
      · have hf := h dir (List.mem_cons_self _ _)
        have hpe : w.pathExists (td ++ dir) = true := by
          simpa using hex
        have hd : w.isDir (td ++ dir) = true := by
          rw [show w.pathExists (td ++ dir) =
            (w.isFile (td ++ dir) || w.isDir (td ++ dir)) from rfl] at hpe
          rw [hf] at hpe
          simpa using hpe
        rw [if_pos hex, hd]
        simp only [Bool.not_true, Bool.false_eq_true, if_false]
        obtain ⟨cr, w', heq, hfiles, htr, henv, hdirs⟩ :=
          ihr w created (fun d hd' => h d (List.mem_cons_of_mem _ hd'))
        exact ⟨cr, w', heq, hfiles, htr, henv, fun p hp =>
          (hdirs p hp).imp id (fun ⟨d, hd', he⟩ => ⟨d, List.mem_cons_of_mem _ hd', he⟩)⟩
      · rw [if_neg hex]
        obtain ⟨cr, w', heq, hfiles, htr, henv, hdirs⟩ :=
          ihr (w.mkDir (td ++ dir)) (created ++ [pathString dir])
            (fun d hd' => h d (List.mem_cons_of_mem _ hd'))
        refine ⟨cr, w', heq, hfiles, htr, sameEnv_trans (sameEnv_mkDir w _) henv, ?_⟩
        intro p hp
        rcases hdirs p hp with hin | ⟨d, hd', he⟩
        · rw [show (w.mkDir (td ++ dir)).dirs = (td ++ dir) :: w.dirs from rfl] at hin
          rcases List.mem_cons.mp hin with he | hin
          · exact Or.inr ⟨dir, List.mem_cons_self _ _, he⟩
          · exact Or.inl hin
        · exact Or.inr ⟨d, List.mem_cons_of_mem _ hd', he⟩

theorem create_directory_structure_props (w : World) (td : FsPath)
    (hclaude : w.isDir (td ++ CLAUDE_DIR) = true)
    (hsub : ∀ d ∈ ([HOOKS_DIR, SKILLS_DIR, AGENTS_DIR, COMMANDS_DIR] : List FsPath),
        w.isFile (td ++ d) = false) :
    ∃ cr w', create_directory_structure w td false = (.ok cr, w') ∧
      w'.files = w.files ∧ w'.trace = w.trace ∧ sameEnv w w' ∧
      (∀ p, p ∈ w'.dirs → p ∈ w.dirs ∨
        ∃ d, d ∈ ([HOOKS_DIR, SKILLS_DIR, AGENTS_DIR, COMMANDS_DIR] : List FsPath) ∧
          p = td ++ d) := by
  unfold create_directory_structure
  dsimp only
  have hpe : w.pathExists (td ++ CLAUDE_DIR) = true := by
    rw [show w.pathExists (td ++ CLAUDE_DIR) =
      (w.isFile (td ++ CLAUDE_DIR) || w.isDir (td ++ CLAUDE_DIR)) from rfl, hclaude]
    simp
  rw [hpe, hclaude]
  simp only [Bool.not_true, Bool.false_eq_true, if_false]
  exact cds_loop_props td _ w [] hsub

theorem copy_dir_recursive_props (fs : List (FsPath × String)) :
    ∀ (w : World) (target : FsPath),
      (∀ e ∈ fs, w.writeFail (target ++ e.1) = none) →
      ∃ w', copy_dir_recursive w fs target = (.ok (), w') ∧ sameEnv w w' ∧
        w'.dirs = w.dirs ∧
        (∀ q, ¬ (target <+: q) → alookup w'.files q = alookup w.files q) := by
  induction fs with
  | nil =>
      intro w target h
      exact ⟨w, rfl, sameEnv_refl w, rfl, fun q _ => rfl⟩
  | cons e rest ihr =>
      intro w target h
      obtain ⟨rel, content⟩ := e
      unfold copy_dir_recursive World.fsWrite
      rw [h (rel, content) (List.mem_cons_self _ _)]
      obtain ⟨w', heq, henv, hdirs, hframe⟩ :=
        ihr (w.putFile (target ++ rel) (.text content)) target
          (fun e' he' => h e' (List.mem_cons_of_mem _ he'))
      refine ⟨w', heq, sameEnv_trans (sameEnv_putFile w _ _) henv, hdirs, ?_⟩
      intro q hq
      rw [hframe q hq, alookup_putFile]
      have hne : ¬ (target ++ rel = q) := by
        intro he
        exact hq (he ▸ List.prefix_append target rel)
      rw [if_neg hne]

theorem append_ne_of_length_ne (td : FsPath) {a b : FsPath}
    (h : a.length ≠ b.length) : td ++ a ≠ td ++ b := by
  intro he
  rw [fsAppend_inj] at he
  exact h (he ▸ rfl)

theorem gws_linux_ok (w : World) (td : FsPath)
    (h1 : w.writeFail (td ++ HOOKS_DIR ++ ["skill-activation-prompt.sh"]) = none)
    (h2 : w.writeFail (td ++ HOOKS_DIR ++ ["file-change-tracker.sh"]) = none) :
    generate_wrapper_scripts w td true true Platform.Linux =
      (.ok ["skill-activation-prompt.sh", "file-change-tracker.sh"],
        (w.putFile (td ++ HOOKS_DIR ++ ["skill-activation-prompt.sh"])
            (.text (strReplace WRAPPER_TEMPLATE_SH
              "\x7b\x7bBINARY_NAME\x7d\x7d" "skill-activation-prompt"))).putFile
          (td ++ HOOKS_DIR ++ ["file-change-tracker.sh"])
          (.text (strReplace WRAPPER_TEMPLATE_SH
            "\x7b\x7bBINARY_NAME\x7d\x7d" "file-change-tracker"))) := by
  unfold generate_wrapper_scripts
  dsimp only
  rw [show ("skill-activation-prompt." ++ "sh" : String) = "skill-activation-prompt.sh" from rfl,
      show ("file-change-tracker." ++ "sh" : String) = "file-change-tracker.sh" from rfl]
  unfold World.fsWrite
  rw [h1]
  rw [if_pos rfl]
  dsimp only
  rw [if_pos rfl]
  rw [show (w.putFile (td ++ HOOKS_DIR ++ ["skill-activation-prompt.sh"])
      (.text (strReplace WRAPPER_TEMPLATE_SH
        "\x7b\x7bBINARY_NAME\x7d\x7d" "skill-activation-prompt"))).writeFail
      = w.writeFail from rfl]
  rw [h2]
  rfl

theorem isEmpty_append_singleton (a : FsPath) (x : String) :
    (a ++ [x]).isEmpty = false := by
  cases a <;> rfl

theorem install_skill_dev (w : World) (td : FsPath) (sd : SkillDir)
    (hb : alookup w.skillsBundle "skill-developer" = some sd)
    (hnf : alookup w.files (td ++ SKILLS_DIR ++ ["skill-developer"]) = none)
    (hnd : (td ++ SKILLS_DIR ++ ["skill-developer"]) ∉ w.dirs)
    (hwf : ∀ e ∈ sd.files,
        w.writeFail (td ++ SKILLS_DIR ++ ["skill-developer"] ++ e.1) = none) :
    ∃ w', install_skill w td "skill-developer" false = (.ok (), w') ∧
      sameEnv w w' ∧
      (∀ q, ¬ ((td ++ SKILLS_DIR ++ ["skill-developer"]) <+: q) →
          alookup w'.files q = alookup w.files q) := by
  have hpe : w.pathExists (td ++ SKILLS_DIR ++ ["skill-developer"]) = false := by
    rw [show w.pathExists (td ++ SKILLS_DIR ++ ["skill-developer"]) =
      (w.isFile (td ++ SKILLS_DIR ++ ["skill-developer"]) ||
        w.isDir (td ++ SKILLS_DIR ++ ["skill-developer"])) from rfl]
    rw [show w.isFile (td ++ SKILLS_DIR ++ ["skill-developer"]) =
      (alookup w.files (td ++ SKILLS_DIR ++ ["skill-developer"])).isSome from rfl, hnf]
    rw [show w.isDir (td ++ SKILLS_DIR ++ ["skill-developer"]) =
      decide ((td ++ SKILLS_DIR ++ ["skill-developer"]) ∈ w.dirs) from rfl]
    rw [decide_eq_false hnd]
    rfl
  unfold install_skill
  dsimp only
  rw [show (AVAILABLE_SKILLS.contains "skill-developer") = true from rfl]
  simp only [Bool.not_true, Bool.false_eq_true, if_false, hpe, Bool.not_false,
    Bool.and_true, Bool.false_and]
  rw [hb]
  dsimp only
  obtain ⟨w', heq, henv, hdirs, hframe⟩ :=
    copy_dir_recursive_props sd.files
      (w.mkDir (td ++ SKILLS_DIR ++ ["skill-developer"])) (td ++ SKILLS_DIR ++ ["skill-developer"])
      (fun e he => hwf e he)
  refine ⟨w', heq, sameEnv_trans (sameEnv_mkDir w _) henv, ?_⟩
  intro q hq
  rw [hframe q hq]
  rfl

theorem install_skills_dev (w : World) (td : FsPath) (sd : SkillDir)
    (hb : alookup w.skillsBundle "skill-developer" = some sd)
    (hnf : alookup w.files (td ++ SKILLS_DIR ++ ["skill-developer"]) = none)
    (hnd : (td ++ SKILLS_DIR ++ ["skill-developer"]) ∉ w.dirs)
    (hwf : ∀ e ∈ sd.files,
        w.writeFail (td ++ SKILLS_DIR ++ ["skill-developer"] ++ e.1) = none) :
    ∃ w', install_skills w td ["skill-developer"] false = (.ok ["skill-developer"], w') ∧
      sameEnv w w' ∧
      (∀ q, ¬ ((td ++ SKILLS_DIR ++ ["skill-developer"]) <+: q) →
          alookup w'.files q = alookup w.files q) := by
  obtain ⟨w', heq, henv, hframe⟩ := install_skill_dev w td sd hb hnf hnd hwf
  refine ⟨w', ?_, henv, hframe⟩
  unfold install_skills install_skills_loop
  rw [heq]
  rfl

theorem td_ne_of_ne (td : FsPath) {a b : FsPath} (h : a ≠ b) :
    td ++ a ≠ td ++ b := fun he => h (List.append_cancel_left he)

theorem isEmpty_append_cons (a : FsPath) (x : String) (rest : List String) :
    (a ++ (x :: rest)).isEmpty = false := by
  cases a <;> rfl

theorem gws_linux_props (w : World) (td : FsPath)
    (h1 : w.writeFail (td ++ HOOKS_DIR ++ ["skill-activation-prompt.sh"]) = none)
    (h2 : w.writeFail (td ++ HOOKS_DIR ++ ["file-change-tracker.sh"]) = none) :
    ∃ w', generate_wrapper_scripts w td true true Platform.Linux =
        (.ok ["skill-activation-prompt.sh", "file-change-tracker.sh"], w') ∧
      sameEnv w w' ∧ w'.dirs = w.dirs ∧
      (∀ q, q ≠ td ++ HOOKS_DIR ++ ["skill-activation-prompt.sh"] →
        q ≠ td ++ HOOKS_DIR ++ ["file-change-tracker.sh"] →
        alookup w'.files q = alookup w.files q) := by
  refine ⟨_, gws_linux_ok w td h1 h2, ?_, rfl, ?_⟩
  · exact sameEnv_trans (sameEnv_putFile w _ _) (sameEnv_putFile _ _ _)
  · intro q hq1 hq2
    rw [alookup_putFile, if_neg (fun he => hq2 he.symm), alookup_putFile,
      if_neg (fun he => hq1 he.symm)]

theorem create_settings_json_props (w : World) (td : FsPath)
    (ih it : Bool) (pf : Platform)
    (htf : w.tempFail (td ++ [".claude", "settings.json"]).dropLast = none)
    (hpf : w.persistFail (td ++ [".claude", "settings.json"]) = none) :
    ∃ w', create_settings_json w td ih it pf = (.ok true, w') ∧
      sameEnv w w' ∧ w'.dirs = w.dirs ∧
      (∀ q, q ≠ td ++ [".claude", "settings.json"] →
        alookup w'.files q = alookup w.files q) := by
  unfold create_settings_json
  dsimp only
  rw [write_file_atomic_ok w (td ++ [".claude", "settings.json"])
    (settings_document ih it pf.hook_extension) (isEmpty_append_cons td _ _) htf hpf]
  refine ⟨_, rfl, sameEnv_putFile w _ _, rfl, ?_⟩
  intro q hq
  rw [alookup_putFile, if_neg (fun he => hq he.symm)]

theorem generate_skill_rules_props (w : World) (td : FsPath) (installed : List String)
    (htf : w.tempFail (td ++ SKILLS_DIR ++ ["skill-rules.json"]).dropLast = none)
    (hpf : w.persistFail (td ++ SKILLS_DIR ++ ["skill-rules.json"]) = none) :
    ∃ w', generate_skill_rules w td installed = (.ok (), w') ∧
      sameEnv w w' ∧ w'.dirs = w.dirs ∧
      (∀ q, q ≠ td ++ SKILLS_DIR ++ ["skill-rules.json"] →
        alookup w'.files q = alookup w.files q) := by
  unfold generate_skill_rules
  dsimp only
  rw [write_file_atomic_ok w (td ++ SKILLS_DIR ++ ["skill-rules.json"])
    (skill_rules_document installed) (isEmpty_append_singleton _ _) htf hpf]
  refine ⟨_, rfl, sameEnv_putFile w _ _, rfl, ?_⟩
  intro q hq
  rw [alookup_putFile, if_neg (fun he => hq he.symm)]

theorem generate_skill_hashes_ok (w : World) (td : FsPath) (installed : List String)
    (htf : w.tempFail (td ++ SKILLS_DIR ++ [".catalyst-hashes.json"]).dropLast = none)
    (hpf : w.persistFail (td ++ SKILLS_DIR ++ [".catalyst-hashes.json"]) = none) :
    ∃ w', generate_skill_hashes w td installed = (.ok (), w') ∧ sameEnv w w' := by
  unfold generate_skill_hashes
  dsimp only
  rw [write_file_atomic_ok w (td ++ SKILLS_DIR ++ [".catalyst-hashes.json"])
    (.jsonMap (ghs_loop w (td ++ SKILLS_DIR) [] installed))
    (isEmpty_append_singleton _ _) htf hpf]
  exact ⟨_, rfl, sameEnv_putFile w _ _⟩

theorem generate_skill_hashes_fail (w : World) (td : FsPath) (installed : List String)
    (k : IoErrorKind)
    (htf : w.tempFail (td ++ SKILLS_DIR ++ [".catalyst-hashes.json"]).dropLast = none)
    (hpf : w.persistFail (td ++ SKILLS_DIR ++ [".catalyst-hashes.json"]) = some k)
    (hk : (is_cross_device_error k || is_temp_creation_error k) = false) :
    generate_skill_hashes w td installed = (.error (.Io k), w) := by
  unfold generate_skill_hashes
  dsimp only
  rw [write_file_atomic_hard_fail w (td ++ SKILLS_DIR ++ [".catalyst-hashes.json"])
    (.jsonMap (ghs_loop w (td ++ SKILLS_DIR) [] installed)) k
    (isEmpty_append_singleton _ _) htf hpf hk]

theorem initRunBody_warnings (w : World) (td : FsPath) (sd : SkillDir)
    (hplat : w.platform = Platform.Linux)
    (hclaude : w.isDir (td ++ CLAUDE_DIR) = true)
    (hsub : ∀ d ∈ ([HOOKS_DIR, SKILLS_DIR, AGENTS_DIR, COMMANDS_DIR] : List FsPath),
        w.isFile (td ++ d) = false)
    (hb : alookup w.skillsBundle "skill-developer" = some sd)
    (hnf : alookup w.files (td ++ SKILLS_DIR ++ ["skill-developer"]) = none)
    (hnd : (td ++ SKILLS_DIR ++ ["skill-developer"]) ∉ w.dirs)
    (htf : ∀ p, w.tempFail p = none)
    (hpf : ∀ p, p ≠ td ++ SKILLS_DIR ++ [".catalyst-hashes.json"] → w.persistFail p = none)
    (hkind : ∀ k, w.persistFail (td ++ SKILLS_DIR ++ [".catalyst-hashes.json"]) = some k →
        (is_cross_device_error k || is_temp_creation_error k) = false)
    (hwf : ∀ p, p ≠ td ++ VERSION_FILE → w.writeFail p = none) :
    ∃ r w', initRunBody w
        { install_hooks := true, install_tracker := true,
          skills := ["skill-developer"], force := false, directory := td } =
          (.ok r, w') ∧
      r.warnings =
        (match w.persistFail (td ++ SKILLS_DIR ++ [".catalyst-hashes.json"]) with
          | some k => ["Failed to generate .catalyst-hashes.json: " ++ errMsg (.Io k)]
          | none => []) ++
        (match w.writeFail (td ++ VERSION_FILE) with
          | some k2 => ["Failed to write .catalyst-version: " ++
              errMsg (.FileWriteFailed (td ++ VERSION_FILE) k2)]
          | none => []) ∧
      r.version_file_created = (w.writeFail (td ++ VERSION_FILE)).isNone := by
  obtain ⟨cr, wB, hcds, hBfiles, hBtrace, hBenv, hBdirs⟩ :=
    create_directory_structure_props w td hclaude hsub
  have hne1 : (td ++ HOOKS_DIR ++ ["skill-activation-prompt.sh"]) ≠ td ++ VERSION_FILE := by
    rw [List.append_assoc]
    exact append_ne_of_length_ne td (by simp [HOOKS_DIR, VERSION_FILE])
  have hne2 : (td ++ HOOKS_DIR ++ ["file-change-tracker.sh"]) ≠ td ++ VERSION_FILE := by
    rw [List.append_assoc]
    exact append_ne_of_length_ne td (by simp [HOOKS_DIR, VERSION_FILE])
  obtain ⟨wC, hgws, hCenv, hCdirs, hCframe⟩ :=
    gws_linux_props wB td (by rw [hBenv.1]; exact hwf _ hne1)
      (by rw [hBenv.1]; exact hwf _ hne2)
  have envWC : sameEnv w wC := sameEnv_trans hBenv hCenv
  have hsetne : (td ++ [".claude", "settings.json"]) ≠
      td ++ SKILLS_DIR ++ [".catalyst-hashes.json"] := by
    rw [List.append_assoc]
    exact append_ne_of_length_ne td (by simp [SKILLS_DIR])
  obtain ⟨wD, hset, hDenv, hDdirs, hDframe⟩ :=
    create_settings_json_props wC td true true Platform.Linux
      (by rw [envWC.2.1]; exact htf _)
      (by rw [envWC.2.2.1]; exact hpf _ hsetne)
  have envWD : sameEnv w wD := sameEnv_trans envWC hDenv
  have hskne_set : (td ++ SKILLS_DIR ++ ["skill-developer"]) ≠
      td ++ [".claude", "settings.json"] := by
    rw [List.append_assoc]
    exact append_ne_of_length_ne td (by simp [SKILLS_DIR])
  have hskne_h1 : (td ++ SKILLS_DIR ++ ["skill-developer"]) ≠
      td ++ HOOKS_DIR ++ ["skill-activation-prompt.sh"] := by
    rw [List.append_assoc, List.append_assoc]
    exact td_ne_of_ne td (by simp [HOOKS_DIR, SKILLS_DIR])
  have hskne_h2 : (td ++ SKILLS_DIR ++ ["skill-developer"]) ≠
      td ++ HOOKS_DIR ++ ["file-change-tracker.sh"] := by
    rw [List.append_assoc, List.append_assoc]
    exact td_ne_of_ne td (by simp [HOOKS_DIR, SKILLS_DIR])
  obtain ⟨wE, hinst, hEenv, hEframe⟩ :=
    install_skills_dev wD td sd (by rw [envWD.2.2.2.2.2.2.2.1]; exact hb)
      (by
        rw [hDframe _ hskne_set, hCframe _ hskne_h1 hskne_h2, hBfiles]
        exact hnf)
      (by
        rw [hDdirs, hCdirs]
        intro hmem
        rcases hBdirs _ hmem with hin | ⟨d, hd, he⟩
        · exact hnd hin
        · revert he
          fin_cases hd <;>
            · rw [List.append_assoc]
              exact append_ne_of_length_ne td
                (by simp [SKILLS_DIR, HOOKS_DIR, AGENTS_DIR, COMMANDS_DIR]))
      (fun e he => by
        rw [envWD.1]
        refine hwf _ ?_
        rw [List.append_assoc, List.append_assoc]
        exact append_ne_of_length_ne td (by simp [SKILLS_DIR, VERSION_FILE]))
  have envWE : sameEnv w wE := sameEnv_trans envWD hEenv
  have hrulne : (td ++ SKILLS_DIR ++ ["skill-rules.json"]) ≠
      td ++ SKILLS_DIR ++ [".catalyst-hashes.json"] := by
    exact td_ne_of_ne (td ++ SKILLS_DIR) (by simp)
  obtain ⟨wF, hrules, hFenv, hFdirs, hFframe⟩ :=
    generate_skill_rules_props wE td ["skill-developer"]
      (by rw [envWE.2.1]; exact htf _)
      (by rw [envWE.2.2.1]; exact hpf _ hrulne)
  have envWF : sameEnv w wF := sameEnv_trans envWE hFenv
  unfold initRunBody
  dsimp only
  rw [hcds]
  dsimp only
  rw [hplat, hgws]
  dsimp only
  rw [hset]
  dsimp only
  rw [hinst]
  dsimp only
  rw [hrules]
  dsimp only
  simp only [List.isEmpty_cons, Bool.not_false, reduceIte]
  cases hmf : w.persistFail (td ++ SKILLS_DIR ++ [".catalyst-hashes.json"]) with
  | none =>
      obtain ⟨wG, hghs, hGenv⟩ :=
        generate_skill_hashes_ok wF td ["skill-developer"]
          (by rw [envWF.2.1]; exact htf _)
          (by rw [envWF.2.2.1]; exact hmf)
      have envWG : sameEnv w wG := sameEnv_trans envWF hGenv
      rw [hghs]
      dsimp only
      cases hvf : w.writeFail (td ++ VERSION_FILE) with
      | none =>
          rw [write_version_file_ok wG td (by rw [envWG.1]; exact hvf)]
          exact ⟨_, _, rfl, by simp [InitReport.new], by simp [InitReport.new]⟩
      | some k2 =>
          rw [write_version_file_fail wG td k2 (by rw [envWG.1]; exact hvf)]
          exact ⟨_, _, rfl, by simp [InitReport.new], by simp [InitReport.new]⟩
  | some k =>
      rw [generate_skill_hashes_fail wF td ["skill-developer"] k
        (by rw [envWF.2.1]; exact htf _)
        (by rw [envWF.2.2.1]; exact hmf) (hkind k hmf)]
      dsimp only
      cases hvf : w.writeFail (td ++ VERSION_FILE) with
      | none =>
          rw [write_version_file_ok wF td (by rw [envWF.1]; exact hvf)]
          exact ⟨_, _, rfl, by simp [InitReport.new], by simp [InitReport.new]⟩
      | some k2 =>
          rw [write_version_file_fail wF td k2 (by rw [envWF.1]; exact hvf)]
          exact ⟨_, _, rfl, by simp [InitReport.new], by simp [InitReport.new]⟩

theorem initRun_warnings (w : World) (td : FsPath) (sd : SkillDir)
    (hlock : alookup w.files (td ++ [LOCK_FILE_NAME]) = none)
    (hplat : w.platform = Platform.Linux)
    (hclaude : w.isDir (td ++ CLAUDE_DIR) = true)
    (hsub : ∀ d ∈ ([HOOKS_DIR, SKILLS_DIR, AGENTS_DIR, COMMANDS_DIR] : List FsPath),
        w.isFile (td ++ d) = false)
    (hb : alookup w.skillsBundle "skill-developer" = some sd)
    (hnf : alookup w.files (td ++ SKILLS_DIR ++ ["skill-developer"]) = none)
    (hnd : (td ++ SKILLS_DIR ++ ["skill-developer"]) ∉ w.dirs)
    (htf : ∀ p, w.tempFail p = none)
    (hpf : ∀ p, p ≠ td ++ SKILLS_DIR ++ [".catalyst-hashes.json"] → w.persistFail p = none)
    (hkind : ∀ k, w.persistFail (td ++ SKILLS_DIR ++ [".catalyst-hashes.json"]) = some k →
        (is_cross_device_error k || is_temp_creation_error k) = false)
    (hwf : ∀ p, p ≠ td ++ VERSION_FILE → w.writeFail p = none) :
    ∃ r w', initRun w
        { install_hooks := true, install_tracker := true,
          skills := ["skill-developer"], force := false, directory := td } =
          (.ok r, w') ∧
      r.warnings =
        (match w.persistFail (td ++ SKILLS_DIR ++ [".catalyst-hashes.json"]) with
          | some k => ["Failed to generate .catalyst-hashes.json: " ++ errMsg (.Io k)]
          | none => []) ++
        (match w.writeFail (td ++ VERSION_FILE) with
          | some k2 => ["Failed to write .catalyst-version: " ++
              errMsg (.FileWriteFailed (td ++ VERSION_FILE) k2)]
          | none => []) ∧
      r.version_file_created = (w.writeFail (td ++ VERSION_FILE)).isNone := by
  have hlockne : ∀ d ∈ ([HOOKS_DIR, SKILLS_DIR, AGENTS_DIR, COMMANDS_DIR] : List FsPath),
      (td ++ [LOCK_FILE_NAME]) ≠ td ++ d := by
    intro d hd
    fin_cases hd <;>
      exact append_ne_of_length_ne td
        (by simp [HOOKS_DIR, SKILLS_DIR, AGENTS_DIR, COMMANDS_DIR, LOCK_FILE_NAME])
  obtain ⟨r, w', hbody, hwarn, hflag⟩ :=
    initRunBody_warnings
      { w with
        files := (td ++ [LOCK_FILE_NAME],
          FileData.text (toString w.currentPid)) :: w.files,
        trace := w.trace ++ [Event.acquireLock (td ++ [LOCK_FILE_NAME])] }
      td sd hplat hclaude
      (by
        intro d hd
        show (alookup ((td ++ [LOCK_FILE_NAME],
          FileData.text (toString w.currentPid)) :: w.files) (td ++ d)).isSome = false
        rw [alookup_cons, if_neg (hlockne d hd)]
        exact hsub d hd)
      hb
      (by
        show alookup ((td ++ [LOCK_FILE_NAME],
          FileData.text (toString w.currentPid)) :: w.files)
          (td ++ SKILLS_DIR ++ ["skill-developer"]) = none
        rw [alookup_cons, if_neg (by
          rw [List.append_assoc]
          exact append_ne_of_length_ne td (by simp [SKILLS_DIR, LOCK_FILE_NAME]))]
        exact hnf)
      hnd htf hpf hkind hwf
  refine ⟨r, release_init_lock w' (td ++ [LOCK_FILE_NAME]), ?_, hwarn, hflag⟩
  unfold initRun
  dsimp only
  rw [acquire_free w td hlock]
  dsimp only
  rw [hbody]

/-- C8: in `update` (past the fast path), a failing version-marker write is
fatal — the `FileWriteFailed` error propagates out — while wrapper and
skill step failures never abort the run (the result is `Ok` whenever the
version write succeeds, whatever the other steps did); in `initialize`,
a failing hash-manifest write and a failing version-marker write are each
recorded as a warning on an otherwise-successful report and do not fail
the run. -/
theorem C8_error_propagation_split :
    (∀ (w : World) (td : FsPath) (force : Bool) (d : FileData) (e : IoErrorKind),
        alookup w.files (td ++ VERSION_FILE) = some d →
        ((strTrim d.render == CATALYST_VERSION) && !force) = false →
        w.writeFail (td ++ VERSION_FILE) = some e →
        (update w td force).1 = .error (.FileWriteFailed (td ++ VERSION_FILE) e)) ∧
    (∀ (w : World) (td : FsPath) (force : Bool) (d : FileData),
        alookup w.files (td ++ VERSION_FILE) = some d →
        ((strTrim d.render == CATALYST_VERSION) && !force) = false →
        w.writeFail (td ++ VERSION_FILE) = none →
        ∃ rr, (update w td force).1 = .ok rr) ∧
    (∀ (w : World) (td : FsPath) (sd : SkillDir),
        alookup w.files (td ++ [LOCK_FILE_NAME]) = none →
        w.platform = Platform.Linux →
        w.isDir (td ++ CLAUDE_DIR) = true →
        (∀ d ∈ ([HOOKS_DIR, SKILLS_DIR, AGENTS_DIR, COMMANDS_DIR] : List FsPath),
            w.isFile (td ++ d) = false) →
        alookup w.skillsBundle "skill-developer" = some sd →
        alookup w.files (td ++ SKILLS_DIR ++ ["skill-developer"]) = none →
        (td ++ SKILLS_DIR ++ ["skill-developer"]) ∉ w.dirs →
        (∀ p, w.tempFail p = none) →
        (∀ p, p ≠ td ++ SKILLS_DIR ++ [".catalyst-hashes.json"] →
            w.persistFail p = none) →
        (∀ k, w.persistFail (td ++ SKILLS_DIR ++ [".catalyst-hashes.json"]) = some k →
            (is_cross_device_error k || is_temp_creation_error k) = false) →
        (∀ p, p ≠ td ++ VERSION_FILE → w.writeFail p = none) →
        ∃ r w', initRun w
            { install_hooks := true, install_tracker := true,
              skills := ["skill-developer"], force := false, directory := td } =
              (.ok r, w') ∧
          r.warnings =
            (match w.persistFail (td ++ SKILLS_DIR ++ [".catalyst-hashes.json"]) with
              | some k =>
                  ["Failed to generate .catalyst-hashes.json: " ++ errMsg (.Io k)]
              | none => []) ++
            (match w.writeFail (td ++ VERSION_FILE) with
              | some k2 => ["Failed to write .catalyst-version: " ++
                  errMsg (.FileWriteFailed (td ++ VERSION_FILE) k2)]
              | none => []) ∧
          r.version_file_created = (w.writeFail (td ++ VERSION_FILE)).isNone) :=
  ⟨update_version_write_fatal,
   fun w td force d hm hc he => ⟨_, update_graceful_completion w td force d hm hc he⟩,
   initRun_warnings⟩

/-- A directory whose version-marker path refuses writes. -/
def cxWorldC8i : World :=
  { cxWorldC1 with
    writeFail := fun p =>
      if p = ["t", ".catalyst-version"] then some IoErrorKind.PermissionDenied else none }

/-- A directory where every write except the version marker fails. -/
def cxWorldC8ii : World :=
  { cxWorldC1 with
    writeFail := fun p =>
      if p = ["t", ".catalyst-version"] then none else some IoErrorKind.PermissionDenied }

/-- A fresh directory whose hash-manifest rename and version-marker write
both fail. -/
def cxWorldC8iii : World :=
  { files := [],
    dirs := [["t", ".claude"]],
    trace := [],
    writeFail := fun p =>
      if p = ["t", ".catalyst-version"] then some IoErrorKind.Other else none,
    tempFail := fun _ => none,
    persistFail := fun p =>
      if p = ["t", ".claude", "skills", ".catalyst-hashes.json"] then
        some IoErrorKind.Other
      else none,
    running := fun _ => false,
    currentPid := 77,
    interference := none,
    platform := Platform.Linux,
    skillsBundle := [("skill-developer", { files := [(["SKILL.md"], "# Skill")] })],
    now := "2026-01-01T00:00:00Z" }

/-- Witness for C8 at concrete worlds: a failing version write aborts
`update`; with every other write failing but the version write intact,
`update` still returns `Ok`; `initialize` with failing manifest and
version writes returns `Ok` with exactly the two warnings and no version
flag. -/
theorem C8_error_propagation_split_witness :
    (update cxWorldC8i ["t"] false).1 =
      .error (.FileWriteFailed (["t"] ++ VERSION_FILE) IoErrorKind.PermissionDenied) ∧
    (∃ rr, (update cxWorldC8ii ["t"] false).1 = .ok rr) ∧
    (∃ r w', initRun cxWorldC8iii
        { install_hooks := true, install_tracker := true,
          skills := ["skill-developer"], force := false, directory := ["t"] } =
          (.ok r, w') ∧
      r.warnings =
        ["Failed to generate .catalyst-hashes.json: " ++ errMsg (.Io IoErrorKind.Other),
         "Failed to write .catalyst-version: " ++
           errMsg (.FileWriteFailed (["t"] ++ VERSION_FILE) IoErrorKind.Other)] ∧
      r.version_file_created = false) := by
  refine ⟨?_, ?_, ?_⟩
  · exact C8_error_propagation_split.1 cxWorldC8i ["t"] false
      (FileData.text "0.0.9\n") IoErrorKind.PermissionDenied rfl (by decide) rfl
  · exact C8_error_propagation_split.2.1 cxWorldC8ii ["t"] false
      (FileData.text "0.0.9\n") rfl (by decide) rfl
  · obtain ⟨r, w', h1, h2, h3⟩ :=
      C8_error_propagation_split.2.2 cxWorldC8iii ["t"]
        { files := [(["SKILL.md"], "# Skill")] }
        rfl rfl rfl (by decide) rfl rfl (by decide)
        (fun p => rfl)
        (fun p hp => if_neg hp)
        (fun k hk => by
          have hk2 : some IoErrorKind.Other = some k := hk
          injection hk2 with h4
          rw [← h4]
          rfl)
        (fun p hp => if_neg hp)
    exact ⟨r, w', h1, by rw [h2]; rfl, by rw [h3]; rfl⟩

/-- A fresh directory with no failure injection at all, holding one
bundled skill. -/
def cxWorldC2 : World :=
  { files := [],
    dirs := [["t", ".claude"]],
    trace := [],
    writeFail := fun _ => none,
    tempFail := fun _ => none,
    persistFail := fun _ => none,
    running := fun _ => false,
    currentPid := 77,
    interference := none,
    platform := Platform.Linux,
    skillsBundle := [("skill-developer", { files := [(["SKILL.md"], "# Skill")] })],
    now := "2026-01-01T00:00:00Z" }

/-- The default initialize configuration on that directory. -/
def cfgC2 : InitConfig :=
  { install_hooks := true, install_tracker := true,
    skills := ["skill-developer"], force := false, directory := ["t"] }

/-- C2: the save/load round trip the claim asserts does not exist in the
code.  After a clean `initialize` with one skill, the manifest exists at
`<dir>/.claude/skills/.catalyst-hashes.json` (where `generate_skill_hashes`
saved it), nothing exists at `<dir>/.catalyst-hashes.json` (the path
`update_skills` reads, `target_dir.join(HASHES_FILE)`), so `update_skills`
returns empty results without reading any mapping; moreover even the saved
document is a flat path-to-hash map that does not deserialize as the
`CatalystHashes` document `update_skills` expects. -/
theorem C2_manifest_path_mismatch :
    (alookup (initRun cxWorldC2 cfgC2).2.files
      (["t"] ++ SKILLS_DIR ++ [".catalyst-hashes.json"])).isSome = true ∧
    alookup (initRun cxWorldC2 cfgC2).2.files (["t"] ++ HASHES_FILE) = none ∧
    update_skills (initRun cxWorldC2 cfgC2).2 ["t"] false =
      (.ok ([], []), (initRun cxWorldC2 cfgC2).2) ∧
    ((alookup (initRun cxWorldC2 cfgC2).2.files
      (["t"] ++ SKILLS_DIR ++ [".catalyst-hashes.json"])).bind parseCatalystHashes)
      = none := by
  refine ⟨by decide, by decide, rfl, by decide⟩

theorem csf_path_inj (target src : FsPath) {r1 r2 : FsPath}
    (h1 : r1 ≠ []) (h2 : r2 ≠ [])
    (he : (target ++ r1.dropLast) ++ (src ++ r1) =
          (target ++ r2.dropLast) ++ (src ++ r2)) : r1 = r2 := by
  have e1 : 0 < r1.length := List.length_pos.mpr h1
  have e2 : 0 < r2.length := List.length_pos.mpr h2
  have hlen : r1.length = r2.length := by
    have hl := congrArg List.length he
    simp only [List.length_append, List.length_dropLast] at hl
    omega
  have hd : (target ++ r1.dropLast).length = (target ++ r2.dropLast).length := by
    simp only [List.length_append, List.length_dropLast, hlen]
  obtain ⟨hfst, hsnd⟩ := List.append_inj he hd
  exact List.append_cancel_left hsnd

theorem copy_skill_files_props (fs : List (FsPath × String)) :
    ∀ (w : World) (src target : FsPath),
      (∀ p, w.writeFail p = none) →
      ∃ w', copy_skill_files w fs src target = (.ok (), w') ∧ sameEnv w w' ∧
        (∀ q, ¬ (target <+: q) → alookup w'.files q = alookup w.files q) ∧
        (∀ q, (∀ rel, rel ∈ fs.map Prod.fst →
            q ≠ (target ++ rel.dropLast) ++ (src ++ rel)) →
            alookup w'.files q = alookup w.files q) ∧
        (∀ rel c, (∀ r, r ∈ fs.map Prod.fst → r ≠ ([] : FsPath)) →
            (fs.map Prod.fst).Nodup → (rel, c) ∈ fs →
            alookup w'.files ((target ++ rel.dropLast) ++ (src ++ rel)) =
              some (.text c)) := by
  induction fs with
  | nil =>
      intro w src target h
      exact ⟨w, rfl, sameEnv_refl w, fun q _ => rfl, fun q _ => rfl,
        fun rel c _ _ hm => absurd hm (List.not_mem_nil _)⟩
  | cons e rest ihr =>
      intro w src target h
      obtain ⟨rel0, c0⟩ := e
      unfold copy_skill_files
      dsimp only
      rw [h ((target ++ rel0.dropLast) ++ (src ++ rel0))]
      obtain ⟨w', heq, henv, hframe, hkeep, hcont⟩ :=
        ihr (w.putFile ((target ++ rel0.dropLast) ++ (src ++ rel0)) (.text c0))
          src target (fun p => h p)
      refine ⟨w', heq, sameEnv_trans (sameEnv_putFile w _ _) henv, ?_, ?_, ?_⟩
      · intro q hq
        rw [hframe q hq, alookup_putFile, if_neg (fun he => hq (by
          rw [← he, List.append_assoc]
          exact List.prefix_append target _))]
      · intro q hq
        have hq0 : (target ++ rel0.dropLast) ++ (src ++ rel0) ≠ q :=
          fun he => hq rel0 (List.mem_cons_self _ _) he.symm
        have hqrest : ∀ rel, rel ∈ rest.map Prod.fst →
            q ≠ (target ++ rel.dropLast) ++ (src ++ rel) :=
          fun rel hm => hq rel (List.mem_cons_of_mem _ hm)
        rw [hkeep q hqrest, alookup_putFile, if_neg hq0]
      · intro rel c hne hnd hm
        rcases List.mem_cons.mp hm with he | hm2
        · have hrel : rel = rel0 := congrArg Prod.fst he
          have hc : c = c0 := congrArg Prod.snd he
          subst hrel
          subst hc
          have hnotin : rel ∉ rest.map Prod.fst := by
            have hx := hnd
            rw [List.map_cons] at hx
            exact (List.nodup_cons.mp hx).1
          have hrelne : rel ≠ [] := hne rel (by
            rw [List.map_cons]
            exact List.mem_cons_self _ _)
          rw [hkeep _ ?_, alookup_putFile, if_pos rfl]
          intro r hr hcol
          have hrne : r ≠ [] := hne r (by
            rw [List.map_cons]
            exact List.mem_cons_of_mem _ hr)
          exact hnotin ((csf_path_inj target src hrelne hrne hcol) ▸ hr)
        · have hner : ∀ r, r ∈ rest.map Prod.fst → r ≠ ([] : FsPath) := by
            intro r hr
            exact hne r (by
              rw [List.map_cons]
              exact List.mem_cons_of_mem _ hr)
          have hndr : (rest.map Prod.fst).Nodup := by
            rw [List.map_cons] at hnd
            exact (List.nodup_cons.mp hnd).2
          exact hcont rel c hner hndr hm2

theorem skills_prefix_not_hashes (td : FsPath) (n : String) :
    ¬ ((td ++ SKILLS_DIR ++ [n]) <+: (td ++ HASHES_FILE)) := by
  rw [List.append_assoc]
  intro h
  rw [List.prefix_append_right_inj] at h
  have hl := h.length_le
  simp [SKILLS_DIR, HASHES_FILE] at hl

theorem skills_prefix_not_other_skill (td : FsPath) (n n' : String) (hne : n ≠ n') :
    ¬ ((td ++ SKILLS_DIR ++ [n]) <+: (td ++ SKILLS_DIR ++ [n', "SKILL.md"])) := by
  intro h
  rw [List.prefix_append_right_inj] at h
  obtain ⟨t, ht⟩ := h
  injection ht with h1 _
  exact hne h1

theorem hashes_ne_skill_path (td : FsPath) (n : String) :
    (td ++ HASHES_FILE) ≠ td ++ SKILLS_DIR ++ [n, "SKILL.md"] := by
  rw [List.append_assoc]
  exact append_ne_of_length_ne td (by simp [SKILLS_DIR, HASHES_FILE])

theorem skills_prefix_not_other_tail (td : FsPath) (n n' : String)
    (rest : List String) (hne : n ≠ n') :
    ¬ ((td ++ SKILLS_DIR ++ [n]) <+: (td ++ SKILLS_DIR ++ ([n'] ++ rest))) := by
  intro h
  rw [List.prefix_append_right_inj] at h
  obtain ⟨t, ht⟩ := h
  injection ht with h1 _
  exact hne h1

theorem hashes_ne_doubled_path (td : FsPath) (n : String) :
    (td ++ HASHES_FILE) ≠ (td ++ SKILLS_DIR ++ [n]) ++ ([n] ++ ["SKILL.md"]) := by
  intro he
  have hl := congrArg List.length he
  simp only [List.length_append, HASHES_FILE, SKILLS_DIR, List.length_cons,
    List.length_nil] at hl
  omega

theorem tracked_ne_doubled_write (td : FsPath) (n : String) {rel : FsPath}
    (hr : rel ≠ []) :
    td ++ SKILLS_DIR ++ [n, "SKILL.md"] ≠
      ((td ++ SKILLS_DIR ++ [n]) ++ rel.dropLast) ++ ([n] ++ rel) := by
  intro he
  have h1 : 0 < rel.length := List.length_pos.mpr hr
  have hl := congrArg List.length he
  simp only [List.length_append, List.length_dropLast, SKILLS_DIR,
    List.length_cons, List.length_nil] at hl
  omega

theorem usl_props (es : List (String × String)) :
    ∀ (w : World) (td : FsPath) (force : Bool) (upd : List String)
      (sk : List SkippedSkill),
      (∀ p, w.writeFail p = none) →
      ∃ upd2 sk2 w',
        update_skills_loop w (td ++ SKILLS_DIR) force upd sk es =
          (.ok (upd ++ upd2, sk ++ sk2), w') ∧
        sameEnv w w' ∧ List.Sublist upd2 (es.map Prod.fst) ∧
        (∀ q, (∀ n, n ∈ es.map Prod.fst → ¬ ((td ++ SKILLS_DIR ++ [n]) <+: q)) →
            alookup w'.files q = alookup w.files q) := by
  induction es with
  | nil =>
      intro w td force upd sk h
      exact ⟨[], [], w, by simp [update_skills_loop], sameEnv_refl w,
        List.Sublist.refl _, fun q _ => rfl⟩
  | cons e rest ihr =>
      intro w td force upd sk h
      obtain ⟨n, exp⟩ := e
      unfold update_skills_loop
      dsimp only
      cases halk : alookup w.files (td ++ SKILLS_DIR ++ [n, "SKILL.md"]) with
      | none =>
          rw [show compute_file_hash w (td ++ SKILLS_DIR ++ [n, "SKILL.md"]) =
            .error (.FileReadFailed (td ++ SKILLS_DIR ++ [n, "SKILL.md"]) .NotFound) from by
              unfold compute_file_hash
              rw [halk]]
          obtain ⟨upd2, sk2, w', heq, henv, hsub, hframe⟩ := ihr w td force upd sk h
          exact ⟨upd2, sk2, w', heq, henv, hsub.trans (List.sublist_cons_self _ _),
            fun q hq => hframe q (fun n' hn' => hq n' (List.mem_cons_of_mem _ hn'))⟩
      | some dd =>
          rw [show compute_file_hash w (td ++ SKILLS_DIR ++ [n, "SKILL.md"]) =
            .ok (sha256hex dd.render) from by
              unfold compute_file_hash
              rw [halk]]
          dsimp only
          by_cases hcond : ((sha256hex dd.render != exp) && !force) = true
          · rw [if_pos hcond]
            obtain ⟨upd2, sk2, w', heq, henv, hsub, hframe⟩ :=
              ihr w td force upd
                (sk ++ [SkippedSkill.mk n "Modified locally"
                  (sha256hex dd.render) exp]) h
            refine ⟨upd2, SkippedSkill.mk n "Modified locally"
              (sha256hex dd.render) exp :: sk2, w', ?_,
              henv, hsub.trans (List.sublist_cons_self _ _),
              fun q hq => hframe q (fun n' hn' => hq n' (List.mem_cons_of_mem _ hn'))⟩
            rw [heq, List.append_assoc]
            rfl
          · rw [if_neg hcond]
            cases hbl : alookup w.skillsBundle n with
            | none =>
                obtain ⟨upd2, sk2, w', heq, henv, hsub, hframe⟩ := ihr w td force upd sk h
                exact ⟨upd2, sk2, w', heq, henv,
                  hsub.trans (List.sublist_cons_self _ _),
                  fun q hq => hframe q (fun n' hn' => hq n' (List.mem_cons_of_mem _ hn'))⟩
            | some sdir =>
                obtain ⟨w1, hcopy, henv1, hframe1, hkeep1, hcont1⟩ :=
                  copy_skill_files_props sdir.files w [n] (td ++ SKILLS_DIR ++ [n]) h
                dsimp only
                rw [hcopy]
                dsimp only
                obtain ⟨upd2, sk2, w', heq, henv, hsub, hframe⟩ :=
                  ihr w1 td force (upd ++ [n]) sk (fun p => by rw [henv1.1]; exact h p)
                refine ⟨n :: upd2, sk2, w', ?_, sameEnv_trans henv1 henv,
                  hsub.cons₂ n, ?_⟩
                · rw [heq, List.append_assoc]
                  rfl
                · intro q hq
                  rw [hframe q (fun n' hn' => hq n' (List.mem_cons_of_mem _ hn'))]
                  exact hframe1 q (hq n (List.mem_cons_self _ _))

theorem usl_append (es1 es2 : List (String × String)) :
    ∀ (w w1 : World) (sd : FsPath) (force : Bool) (upd u : List String)
      (sk s : List SkippedSkill),
      update_skills_loop w sd force upd sk es1 = (.ok (u, s), w1) →
      update_skills_loop w sd force upd sk (es1 ++ es2) =
        update_skills_loop w1 sd force u s es2 := by
  induction es1 with
  | nil =>
      intro w w1 sd force upd u sk s hstep
      rw [show update_skills_loop w sd force upd sk [] =
        ((.ok (upd, sk)), w) from rfl] at hstep
      injection hstep with h1 h2
      injection h1 with h1
      injection h1 with ha hb
      subst ha
      subst hb
      subst h2
      rfl
  | cons e rest ih =>
      intro w w1 sd force upd u sk s hstep
      obtain ⟨n, exp⟩ := e
      rw [show ((n, exp) :: rest) ++ es2 = (n, exp) :: (rest ++ es2) from rfl]
      unfold update_skills_loop at hstep
      conv_lhs => unfold update_skills_loop
      dsimp only at hstep ⊢
      cases halk : alookup w.files (sd ++ [n, "SKILL.md"]) with
      | none =>
          rw [show compute_file_hash w (sd ++ [n, "SKILL.md"]) =
            .error (.FileReadFailed (sd ++ [n, "SKILL.md"]) .NotFound) from by
              unfold compute_file_hash
              rw [halk]] at hstep ⊢
          dsimp only at hstep ⊢
          exact ih w w1 sd force upd u sk s hstep
      | some dd =>
          rw [show compute_file_hash w (sd ++ [n, "SKILL.md"]) =
            .ok (sha256hex dd.render) from by
              unfold compute_file_hash
              rw [halk]] at hstep ⊢
          dsimp only at hstep ⊢
          by_cases hcond : ((sha256hex dd.render != exp) && !force) = true
          · rw [if_pos hcond] at hstep ⊢
            exact ih w w1 sd force upd u _ s hstep
          · rw [if_neg hcond] at hstep ⊢
            cases hbl : alookup w.skillsBundle n with
            | none =>
                rw [hbl] at hstep
                dsimp only at hstep ⊢
                exact ih w w1 sd force upd u sk s hstep
            | some sdir =>
                rw [hbl] at hstep
                dsimp only at hstep ⊢
                cases hcp : copy_skill_files w sdir.files [n] (sd ++ [n]) with
                | mk r w2 =>
                    rw [hcp] at hstep
                    cases r with
                    | error e2 =>
                        dsimp only at hstep ⊢
                        injection hstep with h1 h2
                        exact absurd h1 (fun h => Except.noConfusion h)
                    | ok u2 =>
                        dsimp only at hstep ⊢
                        exact ih w2 w1 sd force (upd ++ [n]) u sk s hstep

theorem regen_loop_props (names : List String) :
    ∀ (w : World) (sd : FsPath) (hs : List (String × String)),
      ∃ hs2, regen_loop w sd hs names = .ok hs2 ∧
        (∀ k, k ∉ names → alookup hs2 k = alookup hs k) ∧
        (∀ n hv, names.Nodup → n ∈ names →
          compute_file_hash w (sd ++ [n, "SKILL.md"]) = .ok hv →
          alookup hs2 n = some hv) := by
  induction names with
  | nil =>
      intro w sd hs
      exact ⟨hs, rfl, fun k _ => rfl,
        fun n hv _ hn _ => absurd hn (List.not_mem_nil _)⟩
  | cons m rest ih =>
      intro w sd hs
      unfold regen_loop
      dsimp only
      cases halk : alookup w.files (sd ++ [m, "SKILL.md"]) with
      | none =>
          rw [show compute_file_hash w (sd ++ [m, "SKILL.md"]) =
            .error (.FileReadFailed (sd ++ [m, "SKILL.md"]) .NotFound) from by
              unfold compute_file_hash
              rw [halk]]
          obtain ⟨hs2, heq, hkeep, hmem⟩ := ih w sd hs
          refine ⟨hs2, heq,
            fun k hk => hkeep k (fun hr => hk (List.mem_cons_of_mem _ hr)), ?_⟩
          intro n hv hnd hn hc
          rcases List.mem_cons.mp hn with he | hn2
          · subst he
            rw [show compute_file_hash w (sd ++ [n, "SKILL.md"]) =
              .error (.FileReadFailed (sd ++ [n, "SKILL.md"]) .NotFound) from by
                unfold compute_file_hash
                rw [halk]] at hc
            exact Except.noConfusion hc
          · exact hmem n hv (List.nodup_cons.mp hnd).2 hn2 hc
      | some d =>
          rw [show compute_file_hash w (sd ++ [m, "SKILL.md"]) =
            .ok (sha256hex d.render) from by
              unfold compute_file_hash
              rw [halk]]
          obtain ⟨hs2, heq, hkeep, hmem⟩ := ih w sd (ainsert hs m (sha256hex d.render))
          refine ⟨hs2, heq, ?_, ?_⟩
          · intro k hk
            have hkm : ¬ k = m := fun hh => hk (by rw [hh]; exact List.mem_cons_self _ _)
            have hkr : k ∉ rest := fun hr => hk (List.mem_cons_of_mem _ hr)
            rw [hkeep k hkr, alookup_ainsert, if_neg hkm]
          · intro n hv hnd hn hc
            rcases List.mem_cons.mp hn with he | hn2
            · subst he
              rw [show compute_file_hash w (sd ++ [n, "SKILL.md"]) =
                .ok (sha256hex d.render) from by
                  unfold compute_file_hash
                  rw [halk]] at hc
              have hhv : sha256hex d.render = hv := by injection hc
              have hnotin : n ∉ rest := (List.nodup_cons.mp hnd).1
              rw [hkeep n hnotin, alookup_ainsert, if_pos rfl, hhv]
            · exact hmem n hv (List.nodup_cons.mp hnd).2 hn2 hc

theorem regenerate_hashes_props (w : World) (td : FsPath)
    (updated : List String) (stored : CatalystHashes)
    (hman : alookup w.files (td ++ HASHES_FILE) = some (.jsonHashes stored))
    (hwf : w.writeFail (td ++ HASHES_FILE) = none) :
    ∃ hs2, regenerate_hashes w td updated =
        (.ok (), w.putFile (td ++ HASHES_FILE)
          (.jsonHashes { stored with
                         skills := hs2
                         version := CATALYST_VERSION
                         updated_at := w.now })) ∧
      (∀ n hv, updated.Nodup → n ∈ updated →
        compute_file_hash w (td ++ SKILLS_DIR ++ [n, "SKILL.md"]) = .ok hv →
        alookup hs2 n = some hv) := by
  obtain ⟨hs2, heq, _, hmem⟩ :=
    regen_loop_props updated w (td ++ SKILLS_DIR) stored.skills
  refine ⟨hs2, ?_, ?_⟩
  · unfold regenerate_hashes
    dsimp only
    rw [hman]
    dsimp only [parseCatalystHashes]
    rw [heq]
    dsimp only
    rw [hwf]
  · intro n hv hnd hn hc
    apply hmem n hv hnd hn
    rw [show (td ++ SKILLS_DIR) ++ [n, "SKILL.md"] =
      td ++ SKILLS_DIR ++ [n, "SKILL.md"] from rfl]
    exact hc

/-- C4: the no-`force` half of the claim holds of the code — a tracked
skill whose live `SKILL.md` hash differs from its manifest hash is left
byte-identical by `update_skills` and reported in the skipped list with
the current/expected hash pair — but the `force` half does not:
`copy_skill_files` joins the root-relative `include_dir` path
(`target_dir.join(file.path())`, update.rs) onto a target that already
ends in the skill name, so the bundled content lands at the doubled path
`<skills>/<name>/<name>/SKILL.md`; the tracked file keeps its locally
edited bytes, the skill is still reported updated, and
`regenerate_hashes` then re-records the hash of the *edited* bytes in
the manifest — the file is neither overwritten from the bundled source
nor is its manifest hash recomputed from fresh bundle content. -/
theorem C4_force_update_misses_tracked_file
    (w : World) (td : FsPath) (stored : CatalystHashes)
    (l1 l2 : List (String × String)) (n exp : String) (dd : FileData)
    (sd : SkillDir) (newC : String)
    (h : ∀ p, w.writeFail p = none)
    (hman : alookup w.files (td ++ HASHES_FILE) = some (.jsonHashes stored))
    (hsplit : stored.skills = l1 ++ (n, exp) :: l2)
    (hnd : (stored.skills.map Prod.fst).Nodup)
    (hlive : alookup w.files (td ++ SKILLS_DIR ++ [n, "SKILL.md"]) = some dd)
    (hdiff : sha256hex dd.render ≠ exp)
    (hbl : alookup w.skillsBundle n = some sd)
    (hbnd : (sd.files.map Prod.fst).Nodup)
    (hrelne : ∀ r, r ∈ sd.files.map Prod.fst → r ≠ ([] : FsPath))
    (hbfile : (["SKILL.md"], newC) ∈ sd.files) :
    (∃ upd sk w', update_skills w td false = (.ok (upd, sk), w') ∧
        SkippedSkill.mk n "Modified locally" (sha256hex dd.render) exp ∈ sk ∧
        alookup w'.files (td ++ SKILLS_DIR ++ [n, "SKILL.md"]) = some dd) ∧
    (∃ upd sk w' h2, update_skills w td true = (.ok (upd, sk), w') ∧
        n ∈ upd ∧
        alookup w'.files (td ++ SKILLS_DIR ++ [n, "SKILL.md"]) = some dd ∧
        alookup w'.files ((td ++ SKILLS_DIR ++ [n]) ++ ([n] ++ ["SKILL.md"])) =
          some (.text newC) ∧
        alookup w'.files (td ++ HASHES_FILE) = some (.jsonHashes h2) ∧
        alookup h2.skills n = some (sha256hex dd.render)) := by
  have hnd' : (l1.map Prod.fst ++ n :: l2.map Prod.fst).Nodup := by
    have hx := hnd
    rw [hsplit] at hx
    simpa using hx
  obtain ⟨hnd1, hnd2, hdisj⟩ := List.nodup_append.mp hnd'
  have hn2 : n ∉ l2.map Prod.fst := (List.nodup_cons.mp hnd2).1
  constructor
  · obtain ⟨upd2a, sk2a, w1, heq1, henv1, hsub1, hframe1⟩ :=
      usl_props l1 w td false [] [] h
    have halive1 : alookup w1.files (td ++ SKILLS_DIR ++ [n, "SKILL.md"]) = some dd := by
      rw [hframe1 _ (fun n' hn' => skills_prefix_not_other_skill td n' n
        (fun he => hdisj hn' (by rw [he]; exact List.mem_cons_self _ _)))]
      exact hlive
    obtain ⟨upd2b, sk2b, w2, heq2, henv2, hsub2, hframe2⟩ :=
      usl_props l2 w1 td false ([] ++ upd2a)
        (([] ++ sk2a) ++
          [SkippedSkill.mk n "Modified locally" (sha256hex dd.render) exp])
        (fun p => by rw [henv1.1]; exact h p)
    have halive2 : alookup w2.files (td ++ SKILLS_DIR ++ [n, "SKILL.md"]) = some dd := by
      rw [hframe2 _ (fun n' hn' => skills_prefix_not_other_skill td n' n
        (fun he => hn2 (by rw [← he]; exact hn')))]
      exact halive1
    have hmanw2 : alookup w2.files (td ++ HASHES_FILE) = some (.jsonHashes stored) := by
      rw [hframe2 _ (fun n' _ => skills_prefix_not_hashes td n'),
          hframe1 _ (fun n' _ => skills_prefix_not_hashes td n')]
      exact hman
    unfold update_skills
    dsimp only
    rw [hman]
    dsimp only [parseCatalystHashes]
    rw [hsplit, usl_append l1 ((n, exp) :: l2) w w1 (td ++ SKILLS_DIR) false
      [] ([] ++ upd2a) [] ([] ++ sk2a) heq1]
    unfold update_skills_loop
    dsimp only
    rw [show compute_file_hash w1 (td ++ SKILLS_DIR ++ [n, "SKILL.md"]) =
      .ok (sha256hex dd.render) from by
        unfold compute_file_hash
        rw [halive1]]
    dsimp only
    rw [if_pos (by
      simp only [Bool.not_false, Bool.and_true, bne_iff_ne, ne_eq]
      exact hdiff)]
    rw [heq2]
    dsimp only
    by_cases hie : ((([] : List String) ++ upd2a) ++ upd2b).isEmpty = true
    · rw [if_pos hie]
      refine ⟨_, _, w2, rfl, ?_, halive2⟩
      simp
    · rw [if_neg hie]
      obtain ⟨hs2, hre, _⟩ :=
        regenerate_hashes_props w2 td (([] ++ upd2a) ++ upd2b) stored hmanw2
          (by rw [henv2.1, henv1.1]; exact h _)
      rw [hre]
      dsimp only
      refine ⟨_, _, _, rfl, ?_, ?_⟩
      · simp
      · rw [alookup_putFile, if_neg (hashes_ne_skill_path td n)]
        exact halive2
  · obtain ⟨upd2a, sk2a, w1, heq1, henv1, hsub1, hframe1⟩ :=
      usl_props l1 w td true [] [] h
    have halive1 : alookup w1.files (td ++ SKILLS_DIR ++ [n, "SKILL.md"]) = some dd := by
      rw [hframe1 _ (fun n' hn' => skills_prefix_not_other_skill td n' n
        (fun he => hdisj hn' (by rw [he]; exact List.mem_cons_self _ _)))]
      exact hlive
    have hblw1 : alookup w1.skillsBundle n = some sd := by
      rw [henv1.2.2.2.2.2.2.2.1]
      exact hbl
    obtain ⟨w2, hcopy, henvc, hframec, hkeepc, hcontc⟩ :=
      copy_skill_files_props sd.files w1 [n] (td ++ SKILLS_DIR ++ [n])
        (fun p => by rw [henv1.1]; exact h p)
    have hlive2 : alookup w2.files (td ++ SKILLS_DIR ++ [n, "SKILL.md"]) = some dd := by
      rw [hkeepc _ (fun rel hrel => tracked_ne_doubled_write td n (hrelne rel hrel))]
      exact halive1
    have hdouble2 : alookup w2.files
        ((td ++ SKILLS_DIR ++ [n]) ++ ([n] ++ ["SKILL.md"])) = some (.text newC) := by
      have hx := hcontc ["SKILL.md"] newC hrelne hbnd hbfile
      rw [show ((td ++ SKILLS_DIR ++ [n]) ++ (["SKILL.md"] : FsPath).dropLast) ++
        ([n] ++ ["SKILL.md"]) = (td ++ SKILLS_DIR ++ [n]) ++ ([n] ++ ["SKILL.md"])
        from by simp] at hx
      exact hx
    obtain ⟨upd2b, sk2b, w3, heq2, henv2, hsub2, hframe2⟩ :=
      usl_props l2 w2 td true (([] ++ upd2a) ++ [n]) ([] ++ sk2a)
        (fun p => by rw [henvc.1, henv1.1]; exact h p)
    have hlive3 : alookup w3.files (td ++ SKILLS_DIR ++ [n, "SKILL.md"]) = some dd := by
      rw [hframe2 _ (fun n' hn' => skills_prefix_not_other_skill td n' n
        (fun he => hn2 (by rw [← he]; exact hn')))]
      exact hlive2
    have hdouble3 : alookup w3.files
        ((td ++ SKILLS_DIR ++ [n]) ++ ([n] ++ ["SKILL.md"])) = some (.text newC) := by
      rw [hframe2 _ (fun n' hn' => by
        rw [show (td ++ SKILLS_DIR ++ [n]) ++ ([n] ++ ["SKILL.md"]) =
          td ++ SKILLS_DIR ++ ([n] ++ [n, "SKILL.md"]) from by simp]
        exact skills_prefix_not_other_tail td n' n [n, "SKILL.md"]
          (fun he => hn2 (by rw [← he]; exact hn')))]
      exact hdouble2
    have hmanw3 : alookup w3.files (td ++ HASHES_FILE) = some (.jsonHashes stored) := by
      rw [hframe2 _ (fun n' _ => skills_prefix_not_hashes td n'),
          hframec _ (skills_prefix_not_hashes td n),
          hframe1 _ (fun n' _ => skills_prefix_not_hashes td n')]
      exact hman
    obtain ⟨hs2, hre, hmem2⟩ :=
      regenerate_hashes_props w3 td (((([] : List String) ++ upd2a) ++ [n]) ++ upd2b)
        stored hmanw3 (by rw [henv2.1, henvc.1, henv1.1]; exact h _)
    have hieq : ((([] : List String) ++ upd2a) ++ [n]) ++ upd2b =
        upd2a ++ (n :: upd2b) := by simp
    unfold update_skills
    dsimp only
    rw [hman]
    dsimp only [parseCatalystHashes]
    rw [hsplit, usl_append l1 ((n, exp) :: l2) w w1 (td ++ SKILLS_DIR) true
      [] ([] ++ upd2a) [] ([] ++ sk2a) heq1]
    unfold update_skills_loop
    dsimp only
    rw [show compute_file_hash w1 (td ++ SKILLS_DIR ++ [n, "SKILL.md"]) =
      .ok (sha256hex dd.render) from by
        unfold compute_file_hash
        rw [halive1]]
    dsimp only
    rw [if_neg (by
      simp only [Bool.not_true, Bool.and_false]
      exact Bool.false_ne_true)]
    rw [hblw1]
    dsimp only
    rw [hcopy]
    dsimp only
    rw [heq2]
    dsimp only
    rw [if_neg (by
      rw [show (((([] : List String) ++ upd2a) ++ [n]) ++ upd2b).isEmpty = false from by
        rw [hieq]
        exact isEmpty_append_cons upd2a n upd2b]
      exact Bool.false_ne_true)]
    rw [hre]
    dsimp only
    refine ⟨_, _, _,
      ({ stored with
         skills := hs2
         version := CATALYST_VERSION
         updated_at := w3.now }), rfl, ?_, ?_, ?_, ?_, ?_⟩
    · simp
    · rw [alookup_putFile, if_neg (hashes_ne_skill_path td n)]
      exact hlive3
    · rw [alookup_putFile, if_neg (hashes_ne_doubled_path td n)]
      exact hdouble3
    · rw [alookup_putFile, if_pos rfl]
    · have hund : (((([] : List String) ++ upd2a) ++ [n]) ++ upd2b).Nodup := by
        rw [hieq]
        exact (List.Sublist.append hsub1 (hsub2.cons₂ n)).nodup hnd'
      have hcn : compute_file_hash w3 (td ++ SKILLS_DIR ++ [n, "SKILL.md"]) =
          .ok (sha256hex dd.render) := by
        unfold compute_file_hash
        rw [hlive3]
      exact hmem2 n (sha256hex dd.render) hund (by simp) hcn

/-- Manifest document for the C4 witness: one tracked skill whose
recorded hash no longer matches the installed file. -/
def storedC4 : CatalystHashes :=
  { version := "0.1.0"
    updated_at := "2026-01-01T00:00:00Z"
    skills := [("skill-developer", "sha256:OLD")]
    hooks := [] }

/-- Bundled skill directory for the C4 witness. -/
def sdC4 : SkillDir := ⟨[(["SKILL.md"], "fresh")]⟩

/-- Witness world for C4: a manifest tracking `skill-developer` with an
out-of-date hash, a locally edited `SKILL.md`, and the skill present in
the embedded bundle. -/
def cxWorldC4 : World :=
  { files := [(["t", ".catalyst-hashes.json"], FileData.jsonHashes storedC4),
              (["t", ".claude", "skills", "skill-developer", "SKILL.md"],
                FileData.text "edited")],
    dirs := [["t", ".claude"]],
    trace := [],
    writeFail := fun _ => none,
    tempFail := fun _ => none,
    persistFail := fun _ => none,
    running := fun _ => false,
    currentPid := 4321,
    interference := none,
    platform := Platform.Linux,
    skillsBundle := [("skill-developer", sdC4)],
    now := "2026-01-02T00:00:00Z" }

theorem C4_force_update_misses_tracked_file_witness :
    (∃ upd sk w', update_skills cxWorldC4 ["t"] false = (.ok (upd, sk), w') ∧
        SkippedSkill.mk "skill-developer" "Modified locally"
          (sha256hex (FileData.text "edited").render) "sha256:OLD" ∈ sk ∧
        alookup w'.files
          (["t"] ++ SKILLS_DIR ++ ["skill-developer", "SKILL.md"]) =
          some (.text "edited")) ∧
    (∃ upd sk w' h2, update_skills cxWorldC4 ["t"] true = (.ok (upd, sk), w') ∧
        "skill-developer" ∈ upd ∧
        alookup w'.files
          (["t"] ++ SKILLS_DIR ++ ["skill-developer", "SKILL.md"]) =
          some (.text "edited") ∧
        alookup w'.files
          ((["t"] ++ SKILLS_DIR ++ ["skill-developer"]) ++
            (["skill-developer"] ++ ["SKILL.md"])) =
          some (.text "fresh") ∧
        alookup w'.files (["t"] ++ HASHES_FILE) = some (.jsonHashes h2) ∧
        alookup h2.skills "skill-developer" =
          some (sha256hex (FileData.text "edited").render)) :=
  C4_force_update_misses_tracked_file cxWorldC4 ["t"] storedC4 [] []
    "skill-developer" "sha256:OLD" (FileData.text "edited") sdC4 "fresh"
    (fun p => rfl) rfl rfl (by decide) rfl (by decide) rfl (by decide)
    (by decide) (by decide)
